import Mathlib

/-!
# toolchain-e2e: test-support helpers

A shallow embedding of the pure decision logic of the test-support code
(`testsupport/tiers/nstemplateset.go`, `testsupport/signup_request.go`), of the
waits of `setup/wait` as their tests describe them, and of helpers and loops of
the tests (`test/e2e/parallel/proxy_test.go`, `test/metrics/metrics_test.go`,
`test/e2e/toolchaincluster_test.go`), together with theorems about it.

Conventions of the embedding:

* a Go slice `[]T` is `Slice T = Option (List T)`: `none` is the nil slice,
  `some l` a non-nil slice with elements `l`.  `reflect.DeepEqual` tells a nil
  slice from an empty non-nil one, and so does `=` on `Slice`;
* a Go pointer `*T` is `Option T` (`none` is nil);
* a Go map is an association list `GoMap κ ν`; ranging over the map visits the
  entries in list order, so a statement proved for every list covers every
  iteration order the runtime may choose;
* a function that can dereference a nil pointer returns `Option`, `none`
  standing for the run-time panic.
-/

namespace ToolchainE2E

/-! ## Go data model -/

/-- A Go slice: `none` is the nil slice, `some l` a non-nil slice. -/
abbrev Slice (α : Type) := Option (List α)

/-- The elements visited by `for _, x := range s` (none for a nil slice). -/
def Slice.toList {α : Type} : Slice α → List α
  | none => []
  | some l => l

/-- A Go map as an association list with at most one entry per key. -/
abbrev GoMap (κ ν : Type) := List (κ × ν)

/-- The assignment `m[k] = v`. -/
def GoMap.set {κ ν : Type} [DecidableEq κ] (m : GoMap κ ν) (k : κ) (v : ν) : GoMap κ ν :=
  (k, v) :: m.filter (fun p => decide (p.1 ≠ k))

/-- The two-valued lookup `v, found := m[k]`. -/
def GoMap.get? {κ ν : Type} [DecidableEq κ] (m : GoMap κ ν) (k : κ) : Option ν :=
  (m.find? (fun p => decide (p.1 = k))).map Prod.snd

/-- The builtin `delete(m, k)`. -/
def GoMap.delete {κ ν : Type} [DecidableEq κ] (m : GoMap κ ν) (k : κ) : GoMap κ ν :=
  m.filter (fun p => decide (p.1 ≠ k))

/-- The builtin `len(m)`. -/
def GoMap.len {κ ν : Type} (m : GoMap κ ν) : Nat := m.length

/-! ## API types (`toolchainv1alpha1`), restricted to the fields the code reads -/

/-- Source `NSTemplateSetClusterResources`. -/
structure NSTemplateSetClusterResources where
  TemplateRef : String
deriving DecidableEq, Repr

/-- Source `NSTemplateSetNamespace`. -/
structure NSTemplateSetNamespace where
  TemplateRef : String
deriving DecidableEq, Repr

/-- Source `NSTemplateSetSpaceRole`. -/
structure NSTemplateSetSpaceRole where
  TemplateRef : String
  Usernames : Slice String
deriving DecidableEq, Repr

/-- Source `NSTemplateSetSpec`. -/
structure NSTemplateSetSpec where
  ClusterResources : Option NSTemplateSetClusterResources
  Namespaces : Slice NSTemplateSetNamespace
  SpaceRoles : Slice NSTemplateSetSpaceRole
deriving DecidableEq, Repr

/-- Source `NSTemplateSetStatus`. -/
structure NSTemplateSetStatus where
  ClusterResources : Option NSTemplateSetClusterResources
  Namespaces : Slice NSTemplateSetNamespace
  SpaceRoles : Slice NSTemplateSetSpaceRole
  FeatureToggles : Slice String
deriving DecidableEq, Repr

/-- Source `NSTemplateSet` (object metadata reduced to name and annotations). -/
structure NSTemplateSet where
  Name : String
  Annotations : GoMap String String
  Spec : NSTemplateSetSpec
  Status : NSTemplateSetStatus
deriving DecidableEq, Repr

/-- Source `tiers.TemplateRefs`: the expected template refs of a tier. -/
structure TemplateRefs where
  Namespaces : Slice String
  ClusterResources : Option String
  SpaceRoles : GoMap String String
deriving DecidableEq, Repr

/-! ## `testsupport/tiers/nstemplateset.go` -/

/-- Source `IsSpaceRoleSubset`: collect the template refs of `subset` in `checkset`,
delete every value of `superset` found there, and report whether nothing is left. -/
def IsSpaceRoleSubset (superset : GoMap String String) (subset : Slice NSTemplateSetSpaceRole) : Bool :=
  let checkset : GoMap String Bool := []
  let checkset := subset.toList.foldl (fun cs element => cs.set element.TemplateRef true) checkset
  let checkset := superset.foldl
    (fun cs kv => if (cs.get? kv.2).getD false then cs.delete kv.2 else cs) checkset
  checkset.len == 0

/-- First loop of `IsSpaceRoleSubset`, named for the proofs. -/
def collectRefs (cs : GoMap String Bool) (subset : List NSTemplateSetSpaceRole) : GoMap String Bool :=
  subset.foldl (fun cs element => cs.set element.TemplateRef true) cs

/-- Second loop of `IsSpaceRoleSubset`, named for the proofs. -/
def dropFound (cs : GoMap String Bool) (superset : GoMap String String) : GoMap String Bool :=
  superset.foldl (fun cs kv => if (cs.get? kv.2).getD false then cs.delete kv.2 else cs) cs

/-- Source `reflect.DeepEqual` on the types compared here (strings, structs of strings and
slices of these): structural equality, a nil slice being different from an empty one. -/
def DeepEqual {α : Type} [DecidableEq α] (x y : α) : Bool := decide (x = y)

/-- Source `sort.Strings`: sorts the slice in increasing order (a nil slice stays nil).  For strings
every correct sorting algorithm gives the same result, so insertion sort stands for it. -/
def sortStrings (s : Slice String) : Slice String :=
  s.map (List.insertionSort (fun a b : String => a ≤ b))

/-- Library values the matchers use and that live outside the repository: the annotation key
`toolchainv1alpha1.FeatureToggleNameAnnotationKey` and `utils.SplitCommaSeparatedList`. -/
structure Lib where
  FeatureToggleNameAnnotationKey : String
  SplitCommaSeparatedList : String → Slice String

/-- Source `UntilNSTemplateSetHasTemplateRefs(expectedRevisions).Match`.  The third disjunct of the
first condition dereferences both pointers; it is reached only when both are nil or both are
non-nil, and panics in the first case (`none`). -/
def UntilNSTemplateSetHasTemplateRefs.Match (expectedRevisions : TemplateRefs)
    (actual : NSTemplateSet) : Option Bool :=
  if expectedRevisions.ClusterResources.isNone && actual.Spec.ClusterResources.isSome then
    some false
  else if expectedRevisions.ClusterResources.isSome && actual.Spec.ClusterResources.isNone then
    some false
  else
    match expectedRevisions.ClusterResources, actual.Spec.ClusterResources with
    | some expectedRef, some actualClusterResources =>
      if expectedRef ≠ actualClusterResources.TemplateRef then some false
      else
        let actualNamespaceTmplRefs : Slice String :=
          some (actual.Spec.Namespaces.toList.map fun r => r.TemplateRef)
        let actualNamespaceTmplRefs := sortStrings actualNamespaceTmplRefs
        let expectedNamespaces := sortStrings expectedRevisions.Namespaces
        if !DeepEqual actualNamespaceTmplRefs expectedNamespaces then some false
        else some (IsSpaceRoleSubset expectedRevisions.SpaceRoles actual.Spec.SpaceRoles)
    | _, _ => none

/-- Source `UntilNSTemplateSetHasStatusTemplateRefs().Match`.  As above, `none` is the nil
dereference reached when neither status nor spec has cluster resources. -/
def UntilNSTemplateSetHasStatusTemplateRefs.Match (lib : Lib) (actual : NSTemplateSet) :
    Option Bool :=
  if actual.Status.ClusterResources.isNone && actual.Spec.ClusterResources.isSome then
    some false
  else if actual.Status.ClusterResources.isSome && actual.Spec.ClusterResources.isNone then
    some false
  else
    match actual.Status.ClusterResources, actual.Spec.ClusterResources with
    | some statusClusterResources, some specClusterResources =>
      if statusClusterResources.TemplateRef ≠ specClusterResources.TemplateRef then some false
      else if !DeepEqual actual.Status.Namespaces actual.Spec.Namespaces then some false
      else
        match actual.Annotations.get? lib.FeatureToggleNameAnnotationKey with
        | some featureAnnotation =>
          if !DeepEqual (lib.SplitCommaSeparatedList featureAnnotation)
              actual.Status.FeatureToggles then some false
          else some (DeepEqual actual.Status.SpaceRoles actual.Status.SpaceRoles)
        | none => some (DeepEqual actual.Status.SpaceRoles actual.Status.SpaceRoles)
    | _, _ => none

/-- Cuts a list of characters at every comma; `cur` holds the current piece, reversed. -/
def splitAtCommas (cur : List Char) : List Char → List String
  | [] => [String.mk cur.reverse]
  | c :: cs => if c = ',' then String.mk cur.reverse :: splitAtCommas [] cs
    else splitAtCommas (c :: cur) cs

/-- A concrete library for evaluating the matchers: the key of the feature-toggle annotation
and a splitter that cuts at commas (empty string: empty list). -/
def sampleLib : Lib where
  FeatureToggleNameAnnotationKey := "toolchain.dev.openshift.com/feature"
  SplitCommaSeparatedList := fun s => if s.data = [] then some [] else some (splitAtCommas [] s.data)

/-! ## `testsupport/signup_request.go`: data -/

/-- Source `uuid.UUID`, by its canonical text. -/
structure UUID where
  text : String
deriving DecidableEq, Repr

/-- Source `toolchainv1alpha1.Condition`, reduced to type, status and reason. -/
structure Condition where
  Type_ : String
  Status : String
  Reason : String
deriving DecidableEq, Repr

/-- Source `toolchainv1alpha1.UserSignup`, reduced to the fields `Execute` touches:
`Name`, `Spec.States`, `Spec.TargetCluster`, `Status.CompliantUsername`. -/
structure UserSignup where
  Name : String
  States : Slice String
  TargetCluster : String
  CompliantUsername : String
deriving DecidableEq, Repr

/-- Source `toolchainv1alpha1.MasterUserRecord`, by name. -/
structure MasterUserRecord where
  Name : String
deriving DecidableEq, Repr

/-- Source `toolchainv1alpha1.Space`, by name and target cluster. -/
structure Space where
  Name : String
  TargetCluster : String
deriving DecidableEq, Repr

/-- Source `wait.MemberAwaitility`, reduced to the cluster name. -/
structure MemberAwaitility where
  ClusterName : String
deriving DecidableEq, Repr

/-- Source `wait.HostAwaitility`, reduced to the values `Execute` reads. -/
structure HostAwaitility where
  RegistrationServiceURL : String
  Namespace : String
deriving DecidableEq, Repr

/-- Source `wait.Awaitilities`. -/
structure Awaitilities where
  Host : HostAwaitility
  Members : List MemberAwaitility
deriving DecidableEq, Repr

/-- Source `SignupRequest`, field by field. -/
structure SignupRequest where
  awaitilities : Awaitilities
  ensureMUR : Bool
  waitForMUR : Bool
  manuallyApprove : Bool
  verificationRequired : Bool
  identityID : UUID
  username : String
  email : String
  requiredHTTPStatus : Int
  targetCluster : Option MemberAwaitility
  conditions : Slice Condition
  userSignup : Option UserSignup
  mur : Option MasterUserRecord
  token : String
  originalSub : String
  userID : String
  accountID : String
  cleanupDisabled : Bool
  noSpace : Bool
  activationCode : String
  space : Option Space
  spaceTier : String
deriving DecidableEq, Repr

/-- Source `SignupResult`. -/
structure SignupResult where
  UserSignup : Option UserSignup
  MUR : Option MasterUserRecord
  Space : Option Space
  Token : String
deriving DecidableEq, Repr

/-- Source `http.StatusAccepted`. -/
def StatusAccepted : Int := 202

/-- Source `NewSignupRequest`.  The two random draws, `uuid.NewString()` for the default username
and `uuid.New()` for the identity, are arguments; every field the composite literal leaves
out has its zero value. -/
def NewSignupRequest (awaitilities : Awaitilities) (newString : String) (newID : UUID) :
    SignupRequest :=
  let defaultUsername := "testuser-" ++ newString
  { awaitilities := awaitilities
    ensureMUR := false
    waitForMUR := false
    manuallyApprove := false
    verificationRequired := false
    identityID := newID
    username := defaultUsername
    email := defaultUsername ++ "@test.com"
    requiredHTTPStatus := StatusAccepted
    targetCluster := none
    conditions := none
    userSignup := none
    mur := none
    token := ""
    originalSub := ""
    userID := ""
    accountID := ""
    cleanupDisabled := false
    noSpace := false
    activationCode := ""
    space := none
    spaceTier := "" }

/-! ### The fluent setters -/

/-- Source `IdentityID`. -/
def SignupRequest.IdentityID (r : SignupRequest) (id : UUID) : SignupRequest :=
  { r with identityID := id }

/-- Source `Username`. -/
def SignupRequest.Username (r : SignupRequest) (username : String) : SignupRequest :=
  { r with username := username }

/-- Source `Email`. -/
def SignupRequest.Email (r : SignupRequest) (email : String) : SignupRequest :=
  { r with email := email }

/-- Source `OriginalSub`. -/
def SignupRequest.OriginalSub (r : SignupRequest) (originalSub : String) : SignupRequest :=
  { r with originalSub := originalSub }

/-- Source `UserID`. -/
def SignupRequest.UserID (r : SignupRequest) (userID : String) : SignupRequest :=
  { r with userID := userID }

/-- Source `AccountID`. -/
def SignupRequest.AccountID (r : SignupRequest) (accountID : String) : SignupRequest :=
  { r with accountID := accountID }

/-- Source `EnsureMUR`. -/
def SignupRequest.EnsureMUR (r : SignupRequest) : SignupRequest :=
  { r with ensureMUR := true }

/-- Source `WaitForMUR`. -/
def SignupRequest.WaitForMUR (r : SignupRequest) : SignupRequest :=
  { r with waitForMUR := true }

/-- Source `ActivationCode`. -/
def SignupRequest.ActivationCode (r : SignupRequest) (code : String) : SignupRequest :=
  { r with activationCode := code }

/-- Source `ManuallyApprove`. -/
def SignupRequest.ManuallyApprove (r : SignupRequest) : SignupRequest :=
  { r with manuallyApprove := true }

/-- Source `RequireConditions`. -/
def SignupRequest.RequireConditions (r : SignupRequest) (conditions : Slice Condition) :
    SignupRequest :=
  { r with conditions := conditions }

/-- Source `VerificationRequired`. -/
def SignupRequest.VerificationRequired (r : SignupRequest) : SignupRequest :=
  { r with verificationRequired := true }

/-- Source `TargetCluster`. -/
def SignupRequest.TargetCluster (r : SignupRequest) (targetCluster : Option MemberAwaitility) :
    SignupRequest :=
  { r with targetCluster := targetCluster }

/-- Source `RequireHTTPStatus`. -/
def SignupRequest.RequireHTTPStatus (r : SignupRequest) (httpStatus : Int) : SignupRequest :=
  { r with requiredHTTPStatus := httpStatus }

/-- Source `DisableCleanup`. -/
def SignupRequest.DisableCleanup (r : SignupRequest) : SignupRequest :=
  { r with cleanupDisabled := true }

/-- Source `NoSpace`. -/
def SignupRequest.NoSpace (r : SignupRequest) : SignupRequest :=
  { r with noSpace := true }

/-- Source `SpaceTier`. -/
def SignupRequest.SpaceTier (r : SignupRequest) (spaceTier : String) : SignupRequest :=
  { r with spaceTier := spaceTier }

/-- One call of a fluent setter, with its argument. -/
inductive Call where
  | IdentityID (id : UUID)
  | Username (username : String)
  | Email (email : String)
  | OriginalSub (originalSub : String)
  | UserID (userID : String)
  | AccountID (accountID : String)
  | EnsureMUR
  | WaitForMUR
  | ActivationCode (code : String)
  | ManuallyApprove
  | RequireConditions (conditions : Slice Condition)
  | VerificationRequired
  | TargetCluster (targetCluster : Option MemberAwaitility)
  | RequireHTTPStatus (httpStatus : Int)
  | DisableCleanup
  | NoSpace
  | SpaceTier (spaceTier : String)
deriving DecidableEq, Repr

/-- The setter a call stands for, applied to a request. -/
def Call.apply (r : SignupRequest) : Call → SignupRequest
  | .IdentityID id => r.IdentityID id
  | .Username username => r.Username username
  | .Email email => r.Email email
  | .OriginalSub originalSub => r.OriginalSub originalSub
  | .UserID userID => r.UserID userID
  | .AccountID accountID => r.AccountID accountID
  | .EnsureMUR => r.EnsureMUR
  | .WaitForMUR => r.WaitForMUR
  | .ActivationCode code => r.ActivationCode code
  | .ManuallyApprove => r.ManuallyApprove
  | .RequireConditions conditions => r.RequireConditions conditions
  | .VerificationRequired => r.VerificationRequired
  | .TargetCluster targetCluster => r.TargetCluster targetCluster
  | .RequireHTTPStatus httpStatus => r.RequireHTTPStatus httpStatus
  | .DisableCleanup => r.DisableCleanup
  | .NoSpace => r.NoSpace
  | .SpaceTier spaceTier => r.SpaceTier spaceTier

/-- A chain `NewSignupRequest(a).F1(..).F2(..)...`: the setters applied from left to right. -/
def chain (r : SignupRequest) (calls : List Call) : SignupRequest :=
  calls.foldl Call.apply r

/-! ## `testsupport/signup_request.go`: `Execute`

`Execute` talks to a cluster, a registration service and the test framework.  Each such call
is a field of `Env`, one field per call site, giving what the call returns (`none` for a
returned error or a failed `require`, which ends the test).  What `Execute` does to the
outside is recorded, in order, as a list of `Action`s. -/

/-- Source `commonauth.Identity`. -/
structure Identity where
  ID : UUID
  Username : String
deriving DecidableEq, Repr

/-- The `commonauth.ExtraClaim` values `Execute` builds, by their constructor. -/
inductive ExtraClaim where
  | WithEmailClaim (email : String)
  | WithOriginalSubClaim (originalSub : String)
  | WithUserIDClaim (userID : String)
  | WithAccountIDClaim (accountID : String)
deriving DecidableEq, Repr

/-- The request `invokeEndpoint` builds.  `URL` is the string handed to `http.NewRequest`;
`Query` lists the pairs added to the URL's query with `q.Add` (empty when the query is left
untouched); header keys are as written in the source. -/
structure HTTPRequest where
  Method : String
  URL : String
  Header : GoMap String String
  Body : Option String
  Query : GoMap String String
  Close : Bool
deriving DecidableEq, Repr

/-- An `http.Response` as far as `invokeEndpoint` looks at it: status code, body,
and whether reading and closing the body succeed. -/
structure HTTPResponse where
  StatusCode : Int
  Body : String
  ReadOK : Bool
  CloseOK : Bool
deriving DecidableEq, Repr

/-- The option passed to `VerifyUserRelatedResources`. -/
inductive UserAccountOption where
  | ExpectUserAccountIn (spaceMember : MemberAwaitility)
  | NoUserAccount
deriving DecidableEq, Repr

/-- What `Execute` does to the outside. -/
inductive Action where
  | RegisterUsername (username testName : String)
  | Send (req : HTTPRequest)
  | Update (name ns : String)
  | MoveSpaceToTier (username tier : String)
  | AddCleanTasks (userSignup : Option UserSignup)
deriving DecidableEq, Repr

/-- The `states` package of the common library, outside the repository: the functions
`Execute` calls.  The Go setters mutate the object behind the pointer; here they return the
mutated object. -/
structure States where
  VerificationRequired : UserSignup → Bool
  SetVerificationRequired : UserSignup → Bool → UserSignup
  ApprovedManually : UserSignup → Bool
  SetApprovedManually : UserSignup → Bool → UserSignup

/-- Source `ToolchainConfig`, reduced to `Spec.Host.AutomaticApproval.Enabled` (a `*bool`). -/
structure ToolchainConfig where
  AutomaticApprovalEnabled : Option Bool
deriving DecidableEq, Repr

/-- Everything outside `Execute`: one field per call. -/
structure Env where
  /-- The `states` package. -/
  states : States
  /-- Source `hostAwait.WaitUntilBaseNSTemplateTierIsUpdated(t)` returns no error. -/
  WaitUntilBaseNSTemplateTierIsUpdated : Bool
  /-- Source `os.Getenv("PWD")`. -/
  PWD : List Char
  /-- Source `usernamesInParallel.usernames` when `Execute` starts. -/
  usernames : GoMap String String
  /-- Source `t.Name()`. -/
  testName : String
  /-- Source `authsupport.NewTokenFromIdentity`. -/
  NewTokenFromIdentity : Identity → List ExtraClaim → Option String
  /-- Source `http.NewRequest(method, path, body)` returns no error. -/
  NewRequest : String → String → Bool
  /-- Source `httpClient.Do`. -/
  Do : HTTPRequest → Option HTTPResponse
  /-- Source `json.Unmarshal` of a body returns no error. -/
  Unmarshal : String → Bool
  /-- Source `wait.EncodeUserIdentifier`. -/
  EncodeUserIdentifier : String → String
  /-- Source `hostAwait.WaitForUserSignup(t, name)`, line 248. -/
  WaitForUserSignup : String → Option UserSignup
  /-- Source `hostAwait.GetToolchainConfig(t)`. -/
  GetToolchainConfig : Option ToolchainConfig
  /-- Source `wait.For(...).Update(name, namespace, modify)`: the updated object. -/
  Update : String → String → (UserSignup → UserSignup) → Option UserSignup
  /-- Source `hostAwait.WaitForUserSignup(t, name, wait.UntilUserSignupHasConditions(...))`, line 282. -/
  WaitForUserSignupWithConditions : String → Slice Condition → Option UserSignup
  /-- Source `hostAwait.WaitForMasterUserRecord`, line 289: error (`none`) or the returned pointer. -/
  WaitForMasterUserRecord : String → Option (Option MasterUserRecord)
  /-- Source `tiers.GetDefaultSpaceTierName`. -/
  GetDefaultSpaceTierName : Option String
  /-- Source `tiers.MoveSpaceToTier` ends without failing the test. -/
  MoveSpaceToTier : String → String → Bool
  /-- Source `VerifySpaceRelatedResources`: failure (`none`) or the returned pointer. -/
  VerifySpaceRelatedResources : UserSignup → String → Option (Option Space)
  /-- Source `GetSpaceTargetMember`. -/
  GetSpaceTargetMember : Option Space → Option MemberAwaitility
  /-- Source `VerifyUserRelatedResources` ends without failing the test. -/
  VerifyUserRelatedResources : UserSignup → String → UserAccountOption → Bool
  /-- Source `hostAwait.WaitForMasterUserRecord`, line 308. -/
  WaitForMasterUserRecordEnsured : String → Option (Option MasterUserRecord)

/-- The outcome of `Execute`: what it did, and the result it returned (`none` when the test
was ended before `Execute` returned). -/
structure Outcome where
  trace : List Action
  result : Option SignupResult

/-- Source `strings.HasSuffix(pwd, "parallel")`. -/
def hasSuffixParallel (pwd : List Char) : Bool :=
  "parallel".data.isSuffixOf pwd

/-- Source `namesRegistry.add`: outside a directory ending in `parallel` nothing happens; inside, a
name that is already registered fails the test (`none`), a new one is registered. -/
def namesRegistry.add (env : Env) (name : String) : Option (List Action) :=
  if !hasSuffixParallel env.PWD then some []
  else
    match env.usernames.get? name with
    | some _ => none
    | none => some [Action.RegisterUsername name env.testName]

/-- Source `invokeEndpoint`: the actions done and whether it returned (no `require` failed). -/
def invokeEndpoint (env : Env) (method path authToken requestBody : String)
    (requiredStatus : Int) (queryParams : GoMap String String) : List Action × Bool :=
  let reqBody : Option String := if requestBody ≠ "" then some requestBody else none
  if !env.NewRequest method path then ([], false)
  else
    let header : GoMap String String := []
    let header := header.set "Authorization" ("Bearer " ++ authToken)
    let header := header.set "content-type" "application/json"
    let query : GoMap String String :=
      if queryParams.len > 0 then
        queryParams.foldl (fun q kv => q ++ [(kv.1, kv.2)]) []
      else []
    let req : HTTPRequest :=
      { Method := method, URL := path, Header := header, Body := reqBody, Query := query,
        Close := true }
    match env.Do req with
    | none => ([Action.Send req], false)
    | some resp =>
      if !resp.ReadOK then ([Action.Send req], false)
      else if requiredStatus ≠ resp.StatusCode then ([Action.Send req], false)
      else if resp.Body.length > 0 && !env.Unmarshal resp.Body then ([Action.Send req], false)
      else ([Action.Send req], resp.CloseOK)

/-- The closure `doUpdate` of `Execute`, lines 258-271.  `userSignup` is the variable of
`Execute` the closure captures, `instance` the object `Update` passes in; the pair returned
is (`userSignup`, `instance`) after the call.  `Update` is given only the name of the object,
so `instance` is another object than `userSignup`. -/
def doUpdate (states : States) (r : SignupRequest) (userSignup inst : UserSignup) :
    UserSignup × UserSignup :=
  let userSignup :=
    if r.verificationRequired != states.VerificationRequired inst then
      states.SetVerificationRequired userSignup r.verificationRequired
    else userSignup
  let inst :=
    if r.manuallyApprove then states.SetApprovedManually inst r.manuallyApprove else inst
  let inst :=
    match r.targetCluster with
    | some targetCluster => { inst with TargetCluster := targetCluster.ClusterName }
    | none => inst
  (userSignup, inst)

/-- Source `Execute`, lines 225-234: the extra claims of the token. -/
def Execute.claims (r : SignupRequest) : List ExtraClaim :=
  let claims := [ExtraClaim.WithEmailClaim r.email]
  let claims :=
    if r.originalSub ≠ "" then claims ++ [ExtraClaim.WithOriginalSubClaim r.originalSub]
    else claims
  let claims :=
    if r.userID ≠ "" then claims ++ [ExtraClaim.WithUserIDClaim r.userID] else claims
  let claims :=
    if r.accountID ≠ "" then claims ++ [ExtraClaim.WithAccountIDClaim r.accountID]
    else claims
  claims

/-- Source `Execute`, lines 238-241: the query parameters of the signup POST. -/
def Execute.queryParams (r : SignupRequest) : GoMap String String :=
  let queryParams : GoMap String String := []
  if r.noSpace then queryParams.set "no-space" "true" else queryParams

/-- Source `Execute`, lines 214-245: token creation and the signup POST.  Returns the request with
its token set, or `none` when the test was ended. -/
def Execute.signup (env : Env) (r : SignupRequest) : List Action × Option SignupRequest :=
  let hostAwait := r.awaitilities.Host
  if !env.WaitUntilBaseNSTemplateTierIsUpdated then ([], none)
  else
    match namesRegistry.add env r.username with
    | none => ([], none)
    | some registered =>
      let userIdentity : Identity := { ID := r.identityID, Username := r.username }
      match env.NewTokenFromIdentity userIdentity (Execute.claims r) with
      | none => (registered, none)
      | some token =>
        let r := { r with token := token }
        let sent := invokeEndpoint env "POST" (hostAwait.RegistrationServiceURL ++ "/api/v1/signup")
          r.token "" r.requiredHTTPStatus (Execute.queryParams r)
        if sent.2 then (registered ++ sent.1, some r) else (registered ++ sent.1, none)

/-- Source `Execute`, lines 257-276: update the UserSignup when the request asks for a manual
approval, a target cluster or another verification-required state than it has. -/
def Execute.update (env : Env) (r : SignupRequest) (userSignup : UserSignup) :
    List Action × Option UserSignup :=
  let hostAwait := r.awaitilities.Host
  if r.manuallyApprove || r.targetCluster.isSome ||
      (r.verificationRequired != env.states.VerificationRequired userSignup) then
    ([Action.Update userSignup.Name hostAwait.Namespace],
      env.Update userSignup.Name hostAwait.Namespace
        (fun inst => (doUpdate env.states r userSignup inst).2))
  else ([], some userSignup)

/-- Source `Execute`, lines 247-284: wait for the UserSignup, update it if asked to, wait for the
required conditions.  Returns the UserSignup in hand at line 286. -/
def Execute.approve (env : Env) (r : SignupRequest) : List Action × Option UserSignup :=
  match env.WaitForUserSignup (env.EncodeUserIdentifier r.username) with
  | none => ([], none)
  | some userSignup =>
    match env.GetToolchainConfig with
    | none => ([], none)
    | some config =>
      if r.targetCluster.isSome && config.AutomaticApprovalEnabled == some true then ([], none)
      else
        match Execute.update env r userSignup with
        | (updated, none) => (updated, none)
        | (updated, some userSignup) =>
          if r.conditions.toList.length > 0 then
            (updated, env.WaitForUserSignupWithConditions userSignup.Name r.conditions)
          else (updated, some userSignup)

/-- Source `Execute`, lines 288-292: with `WaitForMUR`, wait for the MasterUserRecord and keep it. -/
def Execute.waitForMUR (env : Env) (r : SignupRequest) (userSignup : UserSignup) :
    Option SignupRequest :=
  if r.waitForMUR then
    match env.WaitForMasterUserRecord userSignup.CompliantUsername with
    | none => none
    | some mur => some { r with mur := mur }
  else some r

/-- Source `Execute`, lines 297-300: with a space tier, move the space to it; the tier expected
afterwards. -/
def Execute.moveSpace (env : Env) (r : SignupRequest) (userSignup : UserSignup)
    (expectedSpaceTier : String) : List Action × Option String :=
  if r.spaceTier ≠ "" then
    ([Action.MoveSpaceToTier userSignup.CompliantUsername r.spaceTier],
      if env.MoveSpaceToTier userSignup.CompliantUsername r.spaceTier
      then some r.spaceTier else none)
  else ([], some expectedSpaceTier)

/-- Source `Execute`, lines 296-307: verify the resources of the user, and of the space unless the
request is without space; the space found is kept in the request. -/
def Execute.verify (env : Env) (r : SignupRequest) (userSignup : UserSignup)
    (expectedSpaceTier : String) : List Action × Option SignupRequest :=
  if !r.noSpace then
    match Execute.moveSpace env r userSignup expectedSpaceTier with
    | (moved, none) => (moved, none)
    | (moved, some expectedSpaceTier) =>
      match env.VerifySpaceRelatedResources userSignup expectedSpaceTier with
      | none => (moved, none)
      | some space =>
        let r := { r with space := space }
        match env.GetSpaceTargetMember space with
        | none => (moved, none)
        | some spaceMember =>
          if env.VerifyUserRelatedResources userSignup "deactivate30"
              (UserAccountOption.ExpectUserAccountIn spaceMember)
          then (moved, some r) else (moved, none)
  else
    if env.VerifyUserRelatedResources userSignup "deactivate30" UserAccountOption.NoUserAccount
    then ([], some r) else ([], none)

/-- Source `Execute`, lines 294-311: with `EnsureMUR`, verify the provisioned resources and keep the
MasterUserRecord. -/
def Execute.ensureMUR (env : Env) (r : SignupRequest) (userSignup : UserSignup) :
    List Action × Option SignupRequest :=
  if r.ensureMUR then
    match env.GetDefaultSpaceTierName with
    | none => ([], none)
    | some expectedSpaceTier =>
      match Execute.verify env r userSignup expectedSpaceTier with
      | (verified, none) => (verified, none)
      | (verified, some r) =>
        match env.WaitForMasterUserRecordEnsured userSignup.CompliantUsername with
        | none => (verified, none)
        | some mur => (verified, some { r with mur := mur })
  else ([], some r)

/-- Source `Execute`, lines 286-311: store the UserSignup, wait for the MasterUserRecord and verify
the provisioned resources as asked.  Returns the request with `userSignup`, `mur` and `space`
as they are at line 313. -/
def Execute.provision (env : Env) (r : SignupRequest) (userSignup : UserSignup) :
    List Action × Option SignupRequest :=
  let r := { r with userSignup := some userSignup }
  match Execute.waitForMUR env r userSignup with
  | none => ([], none)
  | some r => Execute.ensureMUR env r userSignup

/-- Source `SignupRequest.Execute`. -/
def SignupRequest.Execute (env : Env) (r : SignupRequest) : Outcome :=
  match Execute.signup env r with
  | (sent, none) => { trace := sent, result := none }
  | (sent, some r) =>
    match Execute.approve env r with
    | (approved, none) => { trace := sent ++ approved, result := none }
    | (approved, some userSignup) =>
      match Execute.provision env r userSignup with
      | (provisioned, none) => { trace := sent ++ approved ++ provisioned, result := none }
      | (provisioned, some r) =>
        let cleanup : List Action :=
          if !r.cleanupDisabled then [Action.AddCleanTasks r.userSignup] else []
        { trace := sent ++ approved ++ provisioned ++ cleanup
          result := some
            { UserSignup := some userSignup, MUR := r.mur, Space := r.space, Token := r.token } }

/-! ## A concrete environment, for evaluating `Execute` -/

/-- Sets or clears one entry of `Spec.States`. -/
def setState (userSignup : UserSignup) (state : String) (val : Bool) : UserSignup :=
  if val then
    if userSignup.States.toList.contains state then userSignup
    else { userSignup with States := some (userSignup.States.toList ++ [state]) }
  else
    if userSignup.States.toList.contains state then
      { userSignup with States := some (userSignup.States.toList.filter fun s => s ≠ state) }
    else userSignup

/-- A concrete `states` package: a state is set when it is listed in `Spec.States`, and
approving manually also clears the verification-required state. -/
def sampleStates : States where
  VerificationRequired := fun u => u.States.toList.contains "verification-required"
  SetVerificationRequired := fun u val => setState u "verification-required" val
  ApprovedManually := fun u => u.States.toList.contains "approved"
  SetApprovedManually := fun u val =>
    let u := setState u "approved" val
    if val then
      setState (setState (setState u "verification-required" false) "deactivating" false)
        "deactivated" false
    else u

/-- The awaitilities of the concrete environment. -/
def sampleAwaitilities : Awaitilities where
  Host := { RegistrationServiceURL := "https://registration.example", Namespace := "host-operator" }
  Members := [{ ClusterName := "member-1" }, { ClusterName := "member-2" }]

/-- A concrete environment in which every call succeeds: the registration service answers
202, the cluster holds a UserSignup without states, and the waits return a MasterUserRecord
and a Space named after the user. -/
def sampleEnv : Env where
  states := sampleStates
  WaitUntilBaseNSTemplateTierIsUpdated := true
  PWD := "/work/test/e2e".data
  usernames := []
  testName := "TestSignup"
  NewTokenFromIdentity := fun identity _ => some ("token-" ++ identity.Username)
  NewRequest := fun _ _ => true
  Do := fun _ => some { StatusCode := 202, Body := "", ReadOK := true, CloseOK := true }
  Unmarshal := fun _ => true
  EncodeUserIdentifier := fun username => username
  WaitForUserSignup := fun name =>
    some { Name := name, States := none, TargetCluster := "", CompliantUsername := name }
  GetToolchainConfig := some { AutomaticApprovalEnabled := none }
  Update := fun name _ modify =>
    some (modify { Name := name, States := none, TargetCluster := "", CompliantUsername := name })
  WaitForUserSignupWithConditions := fun name _ =>
    some { Name := name, States := none, TargetCluster := "", CompliantUsername := name }
  WaitForMasterUserRecord := fun name => some (some { Name := name })
  GetDefaultSpaceTierName := some "base1ns"
  MoveSpaceToTier := fun _ _ => true
  VerifySpaceRelatedResources := fun userSignup _ =>
    some (some { Name := userSignup.CompliantUsername, TargetCluster := "member-1" })
  GetSpaceTargetMember := fun _ => some { ClusterName := "member-1" }
  VerifyUserRelatedResources := fun _ _ _ => true
  WaitForMasterUserRecordEnsured := fun name => some (some { Name := name })

/-- A fresh request of the concrete environment: `NewSignupRequest` with the random draws
fixed. -/
def sampleRequest : SignupRequest :=
  NewSignupRequest sampleAwaitilities "0001" { text := "id-0001" }

/-! ## `setup/wait`: waiting for Subscriptions and CSVs

The functions of `setup/wait` are exercised by `setup/wait/wait_test.go` and
`setup/operators/operators_test.go`; their own source is not part of the files at hand. -/

/-- What `client.Get` gives for a name and namespace: the object, a not-found error, or
another error with its text. -/
inductive GetResult (α : Type) where
  | found (obj : α)
  | notFound
  | failed (err : String)
deriving DecidableEq, Repr

/-- Source `v1alpha1.Subscription`, reduced to name, namespace and `Status.CurrentCSV`. -/
structure Subscription where
  Name : String
  Namespace : String
  CurrentCSV : String
deriving DecidableEq, Repr

/-- Source `v1alpha1.ClusterServiceVersion`, reduced to name, namespace, `Status.Phase` and
`Status.Message`. -/
structure ClusterServiceVersion where
  Name : String
  Namespace : String
  Phase : String
  Message : String
deriving DecidableEq, Repr

/-- Modelled from the spec: the body shared by `wait.HasSubscriptionWithCriteria` and
`wait.HasCSVWithCriteria` of `setup/wait`, whose source is missing.  The resource is fetched
by name and namespace; a not-found error gives `(false, nil)`, any other error is returned
as it is with `false`; on a found resource the criteria are tried in order and the first one
that does not hold gives `(false, nil)`; otherwise `(true, nil)`. -/
def hasWithCriteria {α : Type} (get : String → String → GetResult α) (name ns : String)
    (criteria : List (α → Bool)) : Bool × Option String :=
  match get name ns with
  | .failed err => (false, some err)
  | .notFound => (false, none)
  | .found obj => (criteria.all fun criterion => criterion obj, none)

/-- Modelled from the spec: `wait.HasSubscriptionWithCriteria` of `setup/wait`, whose source
is missing; behaviour as in `TestHasSubscriptionWithCondition`. -/
def HasSubscriptionWithCriteria (get : String → String → GetResult Subscription)
    (name ns : String) (criteria : List (Subscription → Bool)) : Bool × Option String :=
  hasWithCriteria get name ns criteria

/-- Modelled from the spec: `wait.HasCSVWithCriteria` of `setup/wait`, whose source is
missing; behaviour as in `TestHasCSVWithPrefix`. -/
def HasCSVWithCriteria (get : String → String → GetResult ClusterServiceVersion)
    (name ns : String) (criteria : List (ClusterServiceVersion → Bool)) :
    Bool × Option String :=
  hasWithCriteria get name ns criteria

/-- The text of `context.DeadlineExceeded`. -/
def deadlineExceeded : String := "context deadline exceeded"

/-- Modelled from the spec: the poll under `wait.ForSubscriptionWithCriteria` and
`wait.ForCSVWithCriteria`, a poll until the timeout that tries the condition at once.  The
condition of attempt `k` is `condition k`; `retries` is the number of further attempts that
fit in the timeout.  An error of the condition ends the poll with that error, a satisfied
condition ends it without error, and when the attempts are used up the error is the deadline
error. -/
def pollUntilTimeout (condition : Nat → Bool × Option String) : Nat → Nat → Option String
  | k, 0 =>
    match condition k with
    | (_, some err) => some err
    | (true, none) => none
    | (false, none) => some deadlineExceeded
  | k, retries + 1 =>
    match condition k with
    | (_, some err) => some err
    | (true, none) => none
    | (false, none) => pollUntilTimeout condition (k + 1) retries

/-- Modelled from the spec: the error of `ForSubscriptionWithCriteria` and
`ForCSVWithCriteria` when the poll fails: the message about the resource, a colon, and the
text of the error of the poll. -/
def couldNotFind (kind name ns err : String) : String :=
  "could not find " ++ kind ++ " with name '" ++ name ++ "' in namespace '" ++ ns ++
    "' that meets the expected criteria: " ++ err

/-- Modelled from the spec: `wait.ForSubscriptionWithCriteria` of `setup/wait`, whose source
is missing; `get k` is the client as attempt `k` finds it, `retries` stands for the timeout.
Returns the error, `none` for nil. -/
def ForSubscriptionWithCriteria (get : Nat → String → String → GetResult Subscription)
    (name ns : String) (retries : Nat) (criteria : List (Subscription → Bool)) :
    Option String :=
  (pollUntilTimeout (fun k => HasSubscriptionWithCriteria (get k) name ns criteria) 0
    retries).map (couldNotFind "a Subscription" name ns)

/-- Modelled from the spec: `wait.ForCSVWithCriteria` of `setup/wait`, whose source is
missing; as `ForSubscriptionWithCriteria`, for CSVs. -/
def ForCSVWithCriteria (get : Nat → String → String → GetResult ClusterServiceVersion)
    (name ns : String) (retries : Nat) (criteria : List (ClusterServiceVersion → Bool)) :
    Option String :=
  (pollUntilTimeout (fun k => HasCSVWithCriteria (get k) name ns criteria) 0
    retries).map (couldNotFind "a CSV" name ns)

/-! ## `test/e2e/parallel/proxy_test.go`: the websocket watcher -/

/-- Source `appstudiov1.Application`, reduced to name, namespace and display name. -/
structure Application where
  Name : String
  Namespace : String
  DisplayName : String
deriving DecidableEq, Repr

/-- Source `message`: a watch message, with its type and the Application it carries. -/
structure message where
  MessageType : String
  Application : Application
deriving DecidableEq, Repr

/-- One turn of the loop of `wsWatcher.receiveHandler` on a message that was read and
decoded, lines 1359-1366: a message of type `DELETED` deletes the entry of its Application,
any other stores a pointer to a copy of it. -/
def receiveMessage (receivedApps : GoMap String (Option Application)) (msg : message) :
    GoMap String (Option Application) :=
  let copyApp := msg.Application
  if msg.MessageType = "DELETED" then receivedApps.delete copyApp.Name
  else receivedApps.set copyApp.Name (some copyApp)

/-- Source `wsWatcher.receiveHandler` on the messages read before the connection ends, in
order; the value is `w.receivedApps` afterwards. -/
def receiveHandler (receivedApps : GoMap String (Option Application)) (msgs : List message) :
    GoMap String (Option Application) :=
  msgs.foldl receiveMessage receivedApps

/-- The most recent message about an application name, if any. -/
def lastMessageFor (name : String) (msgs : List message) : Option message :=
  msgs.reverse.find? fun msg => decide (msg.Application.Name = name)

/-- The condition function of the poll in `wsWatcher.WaitForApplication`, lines 1372-1377:
`foundApp` after the call, and whether the poll is done. -/
def WaitForApplication.condition (receivedApps : GoMap String (Option Application))
    (expectedAppName : String) : Option Application × Bool :=
  let foundApp := (receivedApps.get? expectedAppName).getD none
  (foundApp, foundApp.isSome)

/-- The condition function of the poll in `wsWatcher.WaitForApplicationDeletion`, lines
1382-1387. -/
def WaitForApplicationDeletion.condition (receivedApps : GoMap String (Option Application))
    (expectedAppName : String) : Bool :=
  let present := (receivedApps.get? expectedAppName).isSome
  !present

/-- Source `http.Response` of a dial, reduced to status code and body. -/
structure DialResponse where
  StatusCode : Int
  Body : String
deriving DecidableEq, Repr

/-- The error of a dial: its text, and whether `errors.Is(err, websocket.ErrBadHandshake)`. -/
structure DialError where
  text : String
  isBadHandshake : Bool
deriving DecidableEq, Repr

/-- What `dialer.Dial` returns: connection, response and error, each possibly nil.  The
connection is known by a number. -/
structure DialResult where
  conn : Option Nat
  resp : Option DialResponse
  err : Option DialError
deriving DecidableEq, Repr

/-- What the condition function of the dial poll returns, and the connection stored in the
watcher. -/
structure DialOutcome where
  done : Bool
  err : Option DialError
  connection : Option Nat
deriving DecidableEq, Repr

/-- The condition function of the dial poll in `wsWatcher.Start`, lines 1267-1292, on the
result of the dial of this attempt; `connection` is `w.connection` before.  With an error the
body of the response is read first, a nil response making that a nil dereference (`none`). -/
def Start.condition (connection : Option Nat) (dial : DialResult) : Option DialOutcome :=
  match dial.err with
  | some err =>
    match dial.resp with
    | none => none
    | some resp =>
      if err.isBadHandshake then
        if resp.StatusCode = 429 then some { done := false, err := none, connection := connection }
        else some { done := false, err := some err, connection := connection }
      else some { done := false, err := some err, connection := connection }
  | none => some { done := true, err := none, connection := dial.conn }

/-- The index of the other user in `TestProxyFlow`, line 416: `(index+1)%len(users)`. -/
def otherUserIndex (index len : Nat) : Nat := (index + 1) % len

/-- The usernames of the users of `TestProxyFlow`, lines 175-191. -/
def proxyUsernames : List String := ["proxymember1", "proxymember2", "compliant.username"]

/-! ## `test/metrics/metrics_test.go`: `TestMetricsWhenUsersDeactivatedAndReactivated` -/

/-- The UserSignup a completed `Execute` returns, as far as the test reads it: its name and
`Spec.IdentityClaims.Sub`. -/
structure MetricsUserSignup where
  Name : String
  Sub : String
deriving DecidableEq, Repr

/-- What the test does to the users, in order: a signup request executed for a username, with
the UserSignup it returned, and a deactivation of the UserSignup of a username. -/
inductive MetricsEvent where
  | Activate (username : String) (request : SignupRequest) (userSignup : MetricsUserSignup)
  | Deactivate (username : String) (userSignupName : String)
deriving DecidableEq, Repr

/-- Everything outside the loops of the test.  The calls to `Execute` are numbered in the
order they are made. -/
structure MetricsEnv where
  /-- The value of `WaitForDeployments(t)`. -/
  awaitilities : Awaitilities
  /-- The value of `awaitilities.Member1()`. -/
  memberAwait : MemberAwaitility
  /-- The value of `wait.ConditionSet(wait.Default(), wait.ApprovedByAdmin())`. -/
  conditions : Slice Condition
  /-- The draw of `uuid.NewString()` in the `NewSignupRequest` before call `n` of `Execute`. -/
  newString : Nat → String
  /-- The draw of `uuid.New()` in the `NewSignupRequest` before call `n` of `Execute`. -/
  newID : Nat → UUID
  /-- Call `n` of `Execute`: the UserSignup of its result, `none` when it ends the test. -/
  Execute : Nat → SignupRequest → Option MetricsUserSignup
  /-- The `Update` that sets the deactivated state, before call `n` of `Execute`, returns no
  error. -/
  Deactivate : Nat → String → String → Bool
  /-- The two waits for the deletion of the resources of the user return no error. -/
  WaitUntilDeleted : Nat → String → Bool
  /-- The function `uuid.MustParse`: `none` when it panics. -/
  MustParse : String → Option UUID

/-- The state of the test between two steps: the map `usersignups`, what was done so far, and
the number of calls to `Execute` made. -/
structure MetricsState where
  usersignups : GoMap String MetricsUserSignup
  events : List MetricsEvent
  executed : Nat
deriving DecidableEq, Repr

/-- The digits of `%04d` for a natural number: its decimal digits after as many zeros as are
missing to four characters. -/
def format04d (i : Nat) : List Char :=
  List.replicate (4 - (Nat.toDigits 10 i).length) '0' ++ Nat.toDigits 10 i

/-- The username of line 389: `fmt.Sprintf("user-%04d", i)`. -/
def metricsUsername (i : Nat) : String := "user-" ++ String.mk (format04d i)

/-- The request of lines 391-396, before call `n` of `Execute`. -/
def activationRequest (env : MetricsEnv) (n : Nat) (username : String) : SignupRequest :=
  chain (NewSignupRequest env.awaitilities (env.newString n) (env.newID n))
    [Call.Username username, Call.ManuallyApprove, Call.TargetCluster (some env.memberAwait),
      Call.EnsureMUR, Call.RequireConditions env.conditions]

/-- The request of lines 417-423, before call `n` of `Execute`. -/
def reactivationRequest (env : MetricsEnv) (n : Nat) (username : String) (id : UUID) :
    SignupRequest :=
  chain (NewSignupRequest env.awaitilities (env.newString n) (env.newID n))
    [Call.IdentityID id, Call.Username username, Call.ManuallyApprove,
      Call.TargetCluster (some env.memberAwait), Call.EnsureMUR,
      Call.RequireConditions env.conditions]

/-- The body of the inner loop, lines 401-425: deactivate the user, wait, and sign the user up
again with the identity of the UserSignup in `usersignups`.  `none` when the test ends in it. -/
def reactivate (env : MetricsEnv) (username : String) (st : MetricsState) :
    Option MetricsState :=
  match st.usersignups.get? username with
  | none => none
  | some previous =>
    if !env.Deactivate st.executed previous.Name env.awaitilities.Host.Namespace then none
    else if !env.WaitUntilDeleted st.executed username then none
    else
      match env.MustParse previous.Sub with
      | none => none
      | some id =>
        let request := reactivationRequest env st.executed username id
        match env.Execute st.executed request with
        | none => none
        | some userSignup =>
          some { usersignups := st.usersignups.set username userSignup
                 events := st.events ++
                   [MetricsEvent.Deactivate username previous.Name,
                    MetricsEvent.Activate username request userSignup]
                 executed := st.executed + 1 }

/-- The loop `for j := 1; j < i; j++` with the body above, which does not read `j`: the body
`count` times. -/
def reactivations (env : MetricsEnv) (username : String) :
    Nat → MetricsState → Option MetricsState
  | 0, st => some st
  | count + 1, st =>
    match reactivate env username st with
    | none => none
    | some st => reactivations env username count st

/-- The body of the outer loop, lines 389-426, for the number `i`. -/
def activateUser (env : MetricsEnv) (i : Nat) (st : MetricsState) : Option MetricsState :=
  let username := metricsUsername i
  let request := activationRequest env st.executed username
  match env.Execute st.executed request with
  | none => none
  | some userSignup =>
    reactivations env username (i - 1)
      { usersignups := st.usersignups.set username userSignup
        events := st.events ++ [MetricsEvent.Activate username request userSignup]
        executed := st.executed + 1 }

/-- The loop `for i := 1; i <= 3; i++` over the values of `i` still to come. -/
def activateUsers (env : MetricsEnv) : List Nat → MetricsState → Option MetricsState
  | [], st => some st
  | i :: rest, st =>
    match activateUser env i st with
    | none => none
    | some st => activateUsers env rest st

/-- The loops of `TestMetricsWhenUsersDeactivatedAndReactivated`, lines 385-427, `i` going
from 1 to 3.  The state after the loops, `none` when the test ended in them. -/
def TestMetricsWhenUsersDeactivatedAndReactivated (env : MetricsEnv) : Option MetricsState :=
  activateUsers env [1, 2, 3] { usersignups := [], events := [], executed := 0 }

/-- The number of signup requests executed for a username. -/
def activationsOf (username : String) (events : List MetricsEvent) : Nat :=
  (events.filter fun e =>
    match e with
    | .Activate u _ _ => decide (u = username)
    | .Deactivate _ _ => false).length

/-- The number of deactivations of a username. -/
def deactivationsOf (username : String) (events : List MetricsEvent) : Nat :=
  (events.filter fun e =>
    match e with
    | .Activate _ _ _ => false
    | .Deactivate u _ => decide (u = username)).length

/-- A concrete environment for the test: every call succeeds, the UserSignup of call `n`
carries the identity of the request as `Sub`, and `MustParse` reads any text. -/
def sampleMetricsEnv : MetricsEnv where
  awaitilities := sampleAwaitilities
  memberAwait := { ClusterName := "member-1" }
  conditions := some [{ Type_ := "Complete", Status := "True", Reason := "" }]
  newString := fun _ => "0000"
  newID := fun _ => { text := "fresh-id" }
  Execute := fun _ request => some { Name := request.username, Sub := request.identityID.text }
  Deactivate := fun _ _ _ => true
  WaitUntilDeleted := fun _ _ => true
  MustParse := fun text => some { text := text }

/-! ## `test/metrics/metrics_test.go`: `TestOperatorVersionMetrics`, member operators -/

/-- Everything outside the subtest `member-operators`: the two member clusters, the name of
the version metric, and the calls on a member. -/
structure VersionEnv where
  /-- The value of `awaitilities.Member1()`. -/
  Member1 : MemberAwaitility
  /-- The value of `awaitilities.Member2()`. -/
  Member2 : MemberAwaitility
  /-- The constant `wait.MemberOperatorVersionMetric`. -/
  MemberOperatorVersionMetric : String
  /-- The call `InitMetrics(t)` on a member ends without failing the test. -/
  InitMetrics : MemberAwaitility → Bool
  /-- The call `GetMetricLabels(t, metric)` on a member: the labels of the metric, `none` when
  it ends the test. -/
  GetMetricLabels : MemberAwaitility → String → Option (List (GoMap String String))

/-- What the subtest does, in order: calls on a member, and assertions with their operands. -/
inductive VersionAction where
  | InitMetrics (member : MemberAwaitility)
  | GetMetricLabels (member : MemberAwaitility) (metric : String)
  | AssertLen (commit : String) (length : Nat)
  | AssertEqual (expected actual : String)
deriving DecidableEq, Repr

/-- Lines 59-64 and 68-73: look the version metric up on a member, require exactly one set of
labels, and assert that its `commit` label has seven characters.  The commit, `none` when the
test ended. -/
def versionCommit (env : VersionEnv) (member : MemberAwaitility) :
    List VersionAction × Option String :=
  let lookup := VersionAction.GetMetricLabels member env.MemberOperatorVersionMetric
  match env.GetMetricLabels member env.MemberOperatorVersionMetric with
  | none => ([lookup], none)
  | some labels =>
    match labels with
    | [label] =>
      let commit := (label.get? "commit").getD ""
      ([lookup, VersionAction.AssertLen commit 7], some commit)
    | _ => ([lookup], none)

/-- The subtest `member-operators` of `TestOperatorVersionMetrics`, lines 49-77: what it does,
and whether it reached its end. -/
def TestOperatorVersionMetrics.memberOperators (env : VersionEnv) :
    List VersionAction × Bool :=
  let member1Await := env.Member1
  let member2Await := env.Member1
  if !env.InitMetrics member1Await then ([VersionAction.InitMetrics member1Await], false)
  else if !env.InitMetrics member2Await then
    ([VersionAction.InitMetrics member1Await, VersionAction.InitMetrics member2Await], false)
  else
    let init := [VersionAction.InitMetrics member1Await, VersionAction.InitMetrics member2Await]
    match versionCommit env member1Await with
    | (first, none) => (init ++ first, false)
    | (first, some commit1) =>
      match versionCommit env member2Await with
      | (second, none) => (init ++ first ++ second, false)
      | (second, some commit2) =>
        (init ++ first ++ second ++ [VersionAction.AssertEqual commit1 commit2], true)

/-- A concrete environment for the subtest: two members running different commits. -/
def sampleVersionEnv : VersionEnv where
  Member1 := { ClusterName := "member-1" }
  Member2 := { ClusterName := "member-2" }
  MemberOperatorVersionMetric := "sandbox_member_operator_version"
  InitMetrics := fun _ => true
  GetMetricLabels := fun member _ =>
    if member.ClusterName = "member-1" then some [[("commit", "abc1234")]]
    else some [[("commit", "def5678")]]

/-! ## `test/e2e/toolchaincluster_test.go`: `generateNewName` -/

/-- A Go string: its bytes. -/
abbrev GoString := List (Fin 256)

/-- Source `generateNewName`: the concatenation, cut to its first 63 bytes when it is longer. -/
def generateNewName (pfx baseName : GoString) : GoString :=
  let name := pfx ++ baseName
  if name.length > 63 then name.take 63 else name

/-! # Theorems -/

/-! ## Lemmas on the map model -/

section MapLemmas

variable {κ ν : Type} [DecidableEq κ]

theorem GoMap.mem_keys_set (m : GoMap κ ν) (k k' : κ) (v : ν) :
    k' ∈ (m.set k v).map Prod.fst ↔ k' = k ∨ k' ∈ m.map Prod.fst := by
  unfold GoMap.set
  simp only [List.map_cons, List.mem_cons, List.mem_map, List.mem_filter, decide_eq_true_eq]
  constructor
  · rintro (h | ⟨p, ⟨hp, _⟩, rfl⟩)
    · exact Or.inl h
    · exact Or.inr ⟨p, hp, rfl⟩
  · rintro (h | ⟨p, hp, rfl⟩)
    · exact Or.inl h
    · by_cases hk : p.1 = k
      · exact Or.inl hk
      · exact Or.inr ⟨p, ⟨hp, hk⟩, rfl⟩

theorem GoMap.mem_keys_delete (m : GoMap κ ν) (k k' : κ) :
    k' ∈ (m.delete k).map Prod.fst ↔ k' ∈ m.map Prod.fst ∧ k' ≠ k := by
  unfold GoMap.delete
  simp only [List.mem_map, List.mem_filter, decide_eq_true_eq]
  constructor
  · rintro ⟨p, ⟨hp, hk⟩, rfl⟩
    exact ⟨⟨p, hp, rfl⟩, hk⟩
  · rintro ⟨⟨p, hp, rfl⟩, hk⟩
    exact ⟨p, ⟨hp, hk⟩, rfl⟩

theorem GoMap.get?_true_iff (m : GoMap κ Bool) (hm : ∀ p ∈ m, p.2 = true) (k : κ) :
    (m.get? k).getD false = true ↔ k ∈ m.map Prod.fst := by
  unfold GoMap.get?
  constructor
  · intro h
    cases hf : m.find? (fun p => decide (p.1 = k)) with
    | none => simp [hf] at h
    | some p =>
      have h1 := List.find?_some hf
      have h2 := List.mem_of_find?_eq_some hf
      simp only [decide_eq_true_eq] at h1
      exact List.mem_map.mpr ⟨p, h2, h1⟩
  · intro h
    obtain ⟨p, hp, rfl⟩ := List.mem_map.mp h
    cases hf : m.find? (fun q => decide (q.1 = p.1)) with
    | none =>
      have := List.find?_eq_none.mp hf p hp
      simp at this
    | some q =>
      have h2 := List.mem_of_find?_eq_some hf
      simp [hm q h2]

theorem GoMap.allTrue_set (m : GoMap κ Bool) (hm : ∀ p ∈ m, p.2 = true) (k : κ) :
    ∀ p ∈ m.set k true, p.2 = true := by
  intro p hp
  unfold GoMap.set at hp
  rcases List.mem_cons.mp hp with rfl | h
  · rfl
  · exact hm p (List.mem_filter.mp h).1

theorem GoMap.allTrue_delete (m : GoMap κ Bool) (hm : ∀ p ∈ m, p.2 = true) (k : κ) :
    ∀ p ∈ m.delete k, p.2 = true := by
  intro p hp
  unfold GoMap.delete at hp
  exact hm p (List.mem_filter.mp hp).1

end MapLemmas

/-! ## Lemmas on `IsSpaceRoleSubset` -/

theorem collectRefs_spec (subset : List NSTemplateSetSpaceRole) :
    ∀ cs : GoMap String Bool, (∀ p ∈ cs, p.2 = true) →
      (∀ p ∈ collectRefs cs subset, p.2 = true) ∧
      ∀ k, k ∈ (collectRefs cs subset).map Prod.fst ↔
        k ∈ cs.map Prod.fst ∨ k ∈ subset.map NSTemplateSetSpaceRole.TemplateRef := by
  induction subset with
  | nil =>
    intro cs hcs
    exact ⟨by simpa [collectRefs] using hcs, fun k => by simp [collectRefs]⟩
  | cons e rest ih =>
    intro cs hcs
    have h := ih (cs.set e.TemplateRef true) (GoMap.allTrue_set cs hcs _)
    refine ⟨h.1, fun k => ?_⟩
    have hk := h.2 k
    simp only [collectRefs, List.foldl_cons] at hk ⊢
    rw [hk, GoMap.mem_keys_set]
    simp only [List.map_cons, List.mem_cons]
    tauto

theorem dropFound_spec (superset : GoMap String String) :
    ∀ cs : GoMap String Bool, (∀ p ∈ cs, p.2 = true) →
      ∀ k, k ∈ (dropFound cs superset).map Prod.fst ↔
        k ∈ cs.map Prod.fst ∧ k ∉ superset.map Prod.snd := by
  induction superset with
  | nil => intro cs _ k; simp [dropFound]
  | cons kv rest ih =>
    intro cs hcs k
    simp only [dropFound, List.foldl_cons]
    by_cases hget : (cs.get? kv.2).getD false = true
    · have h := ih (cs.delete kv.2) (GoMap.allTrue_delete cs hcs _) k
      simp only [dropFound] at h
      rw [if_pos hget, h, GoMap.mem_keys_delete]
      simp only [List.map_cons, List.mem_cons, not_or]
      tauto
    · have h := ih cs hcs k
      simp only [dropFound] at h
      rw [if_neg hget, h]
      have hnot : kv.2 ∉ cs.map Prod.fst := fun hm =>
        hget ((GoMap.get?_true_iff cs hcs kv.2).mpr hm)
      simp only [List.map_cons, List.mem_cons, not_or]
      constructor
      · rintro ⟨h1, h2⟩
        exact ⟨h1, fun he => hnot (he ▸ h1), h2⟩
      · rintro ⟨h1, _, h2⟩
        exact ⟨h1, h2⟩

theorem IsSpaceRoleSubset_eq (superset : GoMap String String) (subset : Slice NSTemplateSetSpaceRole) :
    IsSpaceRoleSubset superset subset = ((dropFound (collectRefs [] subset.toList) superset).len == 0) := rfl

theorem IsSpaceRoleSubset_iff (superset : GoMap String String) (subset : Slice NSTemplateSetSpaceRole) :
    IsSpaceRoleSubset superset subset = true ↔
      ∀ element ∈ subset.toList, element.TemplateRef ∈ superset.map Prod.snd := by
  rw [IsSpaceRoleSubset_eq]
  have hc := collectRefs_spec subset.toList [] (by simp)
  have hd := dropFound_spec superset (collectRefs [] subset.toList) hc.1
  simp only [GoMap.len, beq_iff_eq, List.length_eq_zero]
  constructor
  · intro h element he
    by_contra hnot
    have : element.TemplateRef ∈ (dropFound (collectRefs [] subset.toList) superset).map Prod.fst :=
      (hd _).mpr ⟨(hc.2 _).mpr (Or.inr (List.mem_map.mpr ⟨element, he, rfl⟩)), hnot⟩
    rw [h] at this
    simp at this
  · intro h
    apply List.eq_nil_iff_forall_not_mem.mpr
    intro p hp
    have hk : p.1 ∈ (dropFound (collectRefs [] subset.toList) superset).map Prod.fst :=
      List.mem_map.mpr ⟨p, hp, rfl⟩
    obtain ⟨h1, h2⟩ := (hd _).mp hk
    rcases (hc.2 _).mp h1 with h3 | h3
    · simp at h3
    · obtain ⟨element, he, heq⟩ := List.mem_map.mp h3
      exact h2 (heq ▸ h element he)

/-! ## Lemmas on sorting -/

theorem sortStrings_some_eq_iff (l₁ l₂ : List String) :
    sortStrings (some l₁) = sortStrings (some l₂) ↔ l₁.Perm l₂ := by
  simp only [sortStrings, Option.map_some', Option.some.injEq]
  constructor
  · intro h
    have h₁ := List.perm_insertionSort (fun a b : String => a ≤ b) l₁
    have h₂ := List.perm_insertionSort (fun a b : String => a ≤ b) l₂
    exact (h₁.symm.trans (h ▸ List.Perm.refl _)).trans h₂
  · intro h
    have h₁ := List.perm_insertionSort (fun a b : String => a ≤ b) l₁
    have h₂ := List.perm_insertionSort (fun a b : String => a ≤ b) l₂
    exact List.eq_of_perm_of_sorted ((h₁.trans h).trans h₂.symm)
      (List.sorted_insertionSort _ l₁) (List.sorted_insertionSort _ l₂)

theorem sortStrings_some_eq_iff_slice (l : List String) (s : Slice String) :
    sortStrings (some l) = sortStrings s ↔ s.isSome = true ∧ l.Perm s.toList := by
  cases s with
  | none => simp [sortStrings]
  | some l₂ => simpa [Slice.toList] using sortStrings_some_eq_iff l l₂

/-! ## Lemmas on `Execute` -/

theorem foldl_add_pairs (q init : GoMap String String) :
    q.foldl (fun acc kv => acc ++ [(kv.1, kv.2)]) init = init ++ q := by
  induction q generalizing init with
  | nil => simp
  | cons kv rest ih => simp [List.foldl_cons, ih]

theorem invokeEndpoint_send (env : Env) (method path authToken requestBody : String)
    (requiredStatus : Int) (queryParams : GoMap String String) (a : Action)
    (ha : a ∈ (invokeEndpoint env method path authToken requestBody requiredStatus queryParams).1) :
    ∃ req, a = Action.Send req ∧ req.Method = method ∧ req.URL = path ∧
      req.Query = queryParams ∧ req.Body = (if requestBody ≠ "" then some requestBody else none) ∧
      env.NewRequest method path = true := by
  unfold invokeEndpoint at ha
  have hq : (if GoMap.len queryParams > 0 then
      queryParams.foldl (fun q kv => q ++ [(kv.1, kv.2)]) ([] : GoMap String String)
      else []) = queryParams := by
    rw [foldl_add_pairs]
    cases queryParams <;> simp [GoMap.len]
  simp only [hq] at ha
  generalize (if requestBody ≠ "" then some requestBody else none) = body at ha ⊢
  by_cases hn : env.NewRequest method path = true
  · simp only [hn, Bool.not_true, Bool.false_eq_true, if_false] at ha
    split at ha
    · simp only [List.mem_singleton] at ha
      exact ⟨_, ha, rfl, rfl, rfl, rfl, hn⟩
    · split_ifs at ha <;>
      · simp only [List.mem_singleton] at ha
        exact ⟨_, ha, rfl, rfl, rfl, rfl, hn⟩
  · simp [hn] at ha

theorem invokeEndpoint_sent (env : Env) (method path authToken requestBody : String)
    (requiredStatus : Int) (queryParams : GoMap String String)
    (hn : env.NewRequest method path = true) :
    ∃ req, (invokeEndpoint env method path authToken requestBody requiredStatus queryParams).1 =
      [Action.Send req] := by
  unfold invokeEndpoint
  simp only [hn, Bool.not_true, Bool.false_eq_true, if_false]
  generalize (if requestBody ≠ "" then some requestBody else none) = body
  split
  · exact ⟨_, rfl⟩
  · split_ifs <;> exact ⟨_, rfl⟩

theorem namesRegistry.add_actions (env : Env) (name : String) (registered : List Action)
    (h : namesRegistry.add env name = some registered) :
    ∀ a ∈ registered, a = Action.RegisterUsername name env.testName := by
  unfold namesRegistry.add at h
  split_ifs at h
  · simp only [Option.some.injEq] at h
    subst h
    simp
  · cases h2 : GoMap.get? env.usernames name with
    | some x => simp [h2] at h
    | none =>
      simp only [h2, Option.some.injEq] at h
      subst h
      simp

theorem Execute.signup_some (env : Env) (r r₁ : SignupRequest) (t : List Action)
    (h : Execute.signup env r = (t, some r₁)) : ∃ token, r₁ = { r with token := token } := by
  unfold Execute.signup at h
  by_cases h1 : env.WaitUntilBaseNSTemplateTierIsUpdated = true
  · cases h2 : namesRegistry.add env r.username with
    | none => simp [h1, h2] at h
    | some registered =>
      cases h3 : env.NewTokenFromIdentity { ID := r.identityID, Username := r.username }
          (Execute.claims r) with
      | none => simp [h1, h2, h3] at h
      | some token =>
        simp only [h1, h2, h3, Bool.not_true, Bool.false_eq_true, if_false] at h
        split_ifs at h
        · simp only [Prod.mk.injEq, Option.some.injEq] at h
          exact ⟨token, h.2.symm⟩
        · simp at h
  · simp [h1] at h

theorem Execute.signup_trace (env : Env) (r : SignupRequest) (a : Action)
    (ha : a ∈ (Execute.signup env r).1) :
    a = Action.RegisterUsername r.username env.testName ∨
      ∃ req, a = Action.Send req ∧ req.Method = "POST" ∧
        req.URL = r.awaitilities.Host.RegistrationServiceURL ++ "/api/v1/signup" ∧
        req.Query = Execute.queryParams r ∧ req.Body = none := by
  unfold Execute.signup at ha
  by_cases h1 : env.WaitUntilBaseNSTemplateTierIsUpdated = true
  · cases h2 : namesRegistry.add env r.username with
    | none => simp [h1, h2] at ha
    | some registered =>
      have hreg := namesRegistry.add_actions env r.username registered h2
      cases h3 : env.NewTokenFromIdentity { ID := r.identityID, Username := r.username }
          (Execute.claims r) with
      | none =>
        simp only [h1, h2, h3, Bool.not_true, Bool.false_eq_true, if_false] at ha
        exact Or.inl (hreg a ha)
      | some token =>
        simp only [h1, h2, h3, Bool.not_true, Bool.false_eq_true, if_false] at ha
        have hmem : a ∈ registered ∨ a ∈ (invokeEndpoint env "POST"
            (r.awaitilities.Host.RegistrationServiceURL ++ "/api/v1/signup") token ""
            r.requiredHTTPStatus (Execute.queryParams { r with token := token })).1 := by
          split_ifs at ha <;> exact List.mem_append.mp ha
        rcases hmem with hmem | hmem
        · exact Or.inl (hreg a hmem)
        · obtain ⟨req, h4, h5, h6, h7, h8, _⟩ := invokeEndpoint_send _ _ _ _ _ _ _ a hmem
          exact Or.inr ⟨req, h4, h5, h6, h7, by simpa using h8⟩
  · simp [h1] at ha

theorem Execute.update_trace (env : Env) (r : SignupRequest) (userSignup : UserSignup) :
    ∀ a ∈ (Execute.update env r userSignup).1, ∃ name ns, a = Action.Update name ns := by
  intro a ha
  unfold Execute.update at ha
  split_ifs at ha
  · simp only [List.mem_singleton] at ha
    exact ⟨_, _, ha⟩
  · simp at ha

theorem Execute.approve_trace (env : Env) (r : SignupRequest) :
    ∀ a ∈ (Execute.approve env r).1, ∃ name ns, a = Action.Update name ns := by
  intro a ha
  unfold Execute.approve at ha
  cases h1 : env.WaitForUserSignup (env.EncodeUserIdentifier r.username) with
  | none => simp [h1] at ha
  | some userSignup =>
    cases h2 : env.GetToolchainConfig with
    | none => simp [h1, h2] at ha
    | some config =>
      simp only [h1, h2] at ha
      split_ifs at ha
      · simp at ha
      · have hu := Execute.update_trace env r userSignup a
        cases h3 : Execute.update env r userSignup with
        | mk updated res =>
          rw [h3] at ha hu
          cases res with
          | none => exact hu ha
          | some us => exact hu ha
      · have hu := Execute.update_trace env r userSignup a
        cases h3 : Execute.update env r userSignup with
        | mk updated res =>
          rw [h3] at ha hu
          cases res with
          | none => exact hu ha
          | some us => exact hu ha

theorem Execute.waitForMUR_some (env : Env) (r r₁ : SignupRequest) (userSignup : UserSignup)
    (h : Execute.waitForMUR env r userSignup = some r₁) :
    ∃ mur, r₁ = { r with mur := mur } ∧ (r.waitForMUR = false → mur = r.mur) := by
  unfold Execute.waitForMUR at h
  by_cases hw : r.waitForMUR = true
  · rw [if_pos hw] at h
    cases h1 : env.WaitForMasterUserRecord userSignup.CompliantUsername with
    | none => rw [h1] at h; simp at h
    | some mur =>
      rw [h1] at h
      simp only [Option.some.injEq] at h
      exact ⟨mur, h.symm, fun hf => (by rw [hw] at hf; cases hf)⟩
  · rw [if_neg hw] at h
    simp only [Option.some.injEq] at h
    exact ⟨r.mur, h.symm, fun _ => rfl⟩

theorem Execute.moveSpace_trace (env : Env) (r : SignupRequest) (userSignup : UserSignup)
    (tier : String) :
    ∀ a ∈ (Execute.moveSpace env r userSignup tier).1,
      a = Action.MoveSpaceToTier userSignup.CompliantUsername r.spaceTier := by
  intro a ha
  unfold Execute.moveSpace at ha
  split_ifs at ha
  · simpa using ha
  · simpa using ha
  · simp at ha

theorem Execute.verify_spec (env : Env) (r : SignupRequest) (userSignup : UserSignup)
    (tier : String) :
    (∀ a ∈ (Execute.verify env r userSignup tier).1,
      a = Action.MoveSpaceToTier userSignup.CompliantUsername r.spaceTier) ∧
    ∀ r₁, (Execute.verify env r userSignup tier).2 = some r₁ →
      ∃ space, r₁ = { r with space := space } ∧ (r.noSpace = true → space = r.space) := by
  unfold Execute.verify
  by_cases hn : r.noSpace = true
  · have hc : ¬ (!r.noSpace) = true := by simp [hn]
    rw [if_neg hc]
    split_ifs
    · exact ⟨fun a ha => by simp at ha, fun r₁ h => ⟨r.space, (Option.some.inj h).symm, fun _ => rfl⟩⟩
    · exact ⟨fun a ha => by simp at ha, fun r₁ h => by simp at h⟩
  · have hc : (!r.noSpace) = true := by simpa using hn
    rw [if_pos hc]
    have hm := Execute.moveSpace_trace env r userSignup tier
    cases h1 : Execute.moveSpace env r userSignup tier with
    | mk moved res =>
      rw [h1] at hm
      cases res with
      | none => exact ⟨hm, fun r₁ h => by simp at h⟩
      | some tier' =>
        simp only
        cases h2 : env.VerifySpaceRelatedResources userSignup tier' with
        | none => exact ⟨hm, fun r₁ h => by simp at h⟩
        | some space =>
          simp only
          cases h3 : env.GetSpaceTargetMember space with
          | none => exact ⟨hm, fun r₁ h => by simp at h⟩
          | some spaceMember =>
            simp only
            split_ifs
            · exact ⟨hm, fun r₁ h =>
                ⟨space, (Option.some.inj h).symm, fun hs => absurd hs hn⟩⟩
            · exact ⟨hm, fun r₁ h => by simp at h⟩

theorem Execute.ensureMUR_spec (env : Env) (r : SignupRequest) (userSignup : UserSignup) :
    (∀ a ∈ (Execute.ensureMUR env r userSignup).1,
      a = Action.MoveSpaceToTier userSignup.CompliantUsername r.spaceTier) ∧
    ∀ r₁, (Execute.ensureMUR env r userSignup).2 = some r₁ →
      ∃ space mur, r₁ = { r with space := space, mur := mur } ∧
        (r.ensureMUR = false → space = r.space ∧ mur = r.mur) ∧
        (r.noSpace = true → space = r.space) := by
  unfold Execute.ensureMUR
  by_cases he : r.ensureMUR = true
  · rw [if_pos he]
    cases h1 : env.GetDefaultSpaceTierName with
    | none => exact ⟨fun a ha => by simp at ha, fun r₁ h => by simp at h⟩
    | some tier =>
      simp only
      obtain ⟨hv1, hv2⟩ := Execute.verify_spec env r userSignup tier
      cases h2 : Execute.verify env r userSignup tier with
      | mk verified res =>
        rw [h2] at hv1 hv2
        cases res with
        | none => exact ⟨hv1, fun r₁ h => by simp at h⟩
        | some r₂ =>
          obtain ⟨space, hr₂, hsp⟩ := hv2 r₂ rfl
          simp only
          cases h3 : env.WaitForMasterUserRecordEnsured userSignup.CompliantUsername with
          | none => exact ⟨hv1, fun r₁ h => by simp at h⟩
          | some mur =>
            refine ⟨hv1, fun r₁ h =>
              ⟨space, mur, ?_, fun hf => (by rw [he] at hf; cases hf), hsp⟩⟩
            simp only [Option.some.injEq] at h
            rw [← h, hr₂]
  · rw [if_neg he]
    exact ⟨fun a ha => by simp at ha, fun r₁ h =>
      ⟨r.space, r.mur, (Option.some.inj h).symm, fun _ => ⟨rfl, rfl⟩, fun _ => rfl⟩⟩

theorem Execute.provision_spec (env : Env) (r : SignupRequest) (userSignup : UserSignup) :
    (∀ a ∈ (Execute.provision env r userSignup).1,
      a = Action.MoveSpaceToTier userSignup.CompliantUsername r.spaceTier) ∧
    ∀ r₁, (Execute.provision env r userSignup).2 = some r₁ →
      ∃ space mur, r₁ = { r with userSignup := some userSignup, space := space, mur := mur } ∧
        (r.ensureMUR = false → space = r.space) ∧
        (r.noSpace = true → space = r.space) ∧
        (r.ensureMUR = false → r.waitForMUR = false → mur = r.mur) := by
  unfold Execute.provision
  simp only
  cases h1 : Execute.waitForMUR env { r with userSignup := some userSignup } userSignup with
  | none => exact ⟨by simp, fun r₁ h => by simp at h⟩
  | some r₂ =>
    obtain ⟨mur₂, hr₂, hmur₂⟩ := Execute.waitForMUR_some env _ r₂ userSignup h1
    simp only
    obtain ⟨ht, hres⟩ := Execute.ensureMUR_spec env r₂ userSignup
    refine ⟨fun a ha => by simpa [hr₂] using ht a ha, fun r₁ h => ?_⟩
    obtain ⟨space, mur, hr₁, hne, hns⟩ := hres r₁ h
    refine ⟨space, mur, by rw [hr₁, hr₂], ?_, ?_, ?_⟩
    · intro he
      have := (hne (by rw [hr₂]; exact he)).1
      rw [this, hr₂]
    · intro hn
      have := hns (by rw [hr₂]; exact hn)
      rw [this, hr₂]
    · intro he hw
      have := (hne (by rw [hr₂]; exact he)).2
      rw [this, hr₂]
      exact hmur₂ hw

/-- The trace of `Execute` starts with the trace of its first phase. -/
theorem Execute_trace_prefix (env : Env) (r : SignupRequest) :
    ∃ rest, (r.Execute env).trace = (Execute.signup env r).1 ++ rest := by
  unfold SignupRequest.Execute
  cases h1 : Execute.signup env r with
  | mk sent res₁ =>
    cases res₁ with
    | none => exact ⟨[], by simp⟩
    | some r₁ =>
      simp only
      cases h2 : Execute.approve env r₁ with
      | mk approved res₂ =>
        cases res₂ with
        | none => exact ⟨approved, rfl⟩
        | some userSignup =>
          simp only
          cases h3 : Execute.provision env r₁ userSignup with
          | mk provisioned res₃ =>
            cases res₃ with
            | none => exact ⟨approved ++ provisioned, by simp⟩
            | some r₂ =>
              exact ⟨approved ++ provisioned ++
                (if !r₂.cleanupDisabled then [Action.AddCleanTasks r₂.userSignup] else []),
                by simp only [List.append_assoc]⟩

/-- Every action of `Execute` is one of its first phase, an update, a move of the space to a
tier, or the registration of the cleanup. -/
theorem Execute_trace_kinds (env : Env) (r : SignupRequest) :
    ∀ a ∈ (r.Execute env).trace,
      a ∈ (Execute.signup env r).1 ∨ (∃ name ns, a = Action.Update name ns) ∨
        (∃ username tier, a = Action.MoveSpaceToTier username tier) ∨
        ∃ userSignup, a = Action.AddCleanTasks userSignup := by
  intro a ha
  unfold SignupRequest.Execute at ha
  cases h1 : Execute.signup env r with
  | mk sent res₁ =>
    rw [h1] at ha
    cases res₁ with
    | none => exact Or.inl ha
    | some r₁ =>
      simp only at ha
      have hap := Execute.approve_trace env r₁ a
      cases h2 : Execute.approve env r₁ with
      | mk approved res₂ =>
        rw [h2] at ha hap
        cases res₂ with
        | none =>
          rcases List.mem_append.mp ha with h | h
          · exact Or.inl h
          · exact Or.inr (Or.inl (hap h))
        | some userSignup =>
          simp only at ha
          have hpr := (Execute.provision_spec env r₁ userSignup).1 a
          cases h3 : Execute.provision env r₁ userSignup with
          | mk provisioned res₃ =>
            rw [h3] at ha hpr
            cases res₃ with
            | none =>
              simp only [List.mem_append] at ha
              rcases ha with (h | h) | h
              · exact Or.inl h
              · exact Or.inr (Or.inl (hap h))
              · exact Or.inr (Or.inr (Or.inl ⟨_, _, hpr h⟩))
            | some r₂ =>
              simp only [List.mem_append] at ha
              rcases ha with ((h | h) | h) | h
              · exact Or.inl h
              · exact Or.inr (Or.inl (hap h))
              · exact Or.inr (Or.inr (Or.inl ⟨_, _, hpr h⟩))
              · refine Or.inr (Or.inr (Or.inr ⟨r₂.userSignup, ?_⟩))
                split_ifs at h
                · simpa using h
                · simp at h

/-- What a completed `Execute` returns, in terms of the request it was called on. -/
theorem Execute_result (env : Env) (r : SignupRequest) (res : SignupResult)
    (h : (r.Execute env).result = some res) :
    ∃ token userSignup space mur,
      res = { UserSignup := some userSignup, MUR := mur, Space := space, Token := token } ∧
      (r.ensureMUR = false → space = r.space) ∧
      (r.noSpace = true → space = r.space) ∧
      (r.ensureMUR = false → r.waitForMUR = false → mur = r.mur) := by
  unfold SignupRequest.Execute at h
  cases h1 : Execute.signup env r with
  | mk sent res₁ =>
    rw [h1] at h
    cases res₁ with
    | none => simp at h
    | some r₁ =>
      obtain ⟨token, hr₁⟩ := Execute.signup_some env r r₁ sent h1
      simp only at h
      cases h2 : Execute.approve env r₁ with
      | mk approved res₂ =>
        rw [h2] at h
        cases res₂ with
        | none => simp at h
        | some userSignup =>
          simp only at h
          have hpr := (Execute.provision_spec env r₁ userSignup).2
          cases h3 : Execute.provision env r₁ userSignup with
          | mk provisioned res₃ =>
            rw [h3] at h hpr
            cases res₃ with
            | none => simp at h
            | some r₂ =>
              obtain ⟨space, mur, hr₂, hs1, hs2, hm⟩ := hpr r₂ rfl
              simp only [Option.some.injEq] at h
              refine ⟨token, userSignup, space, mur, ?_, ?_, ?_, ?_⟩
              · rw [← h, hr₂, hr₁]
              · intro he
                rw [hs1 (by rw [hr₁]; exact he), hr₁]
              · intro hn
                rw [hs2 (by rw [hr₁]; exact hn), hr₁]
              · intro he hw
                rw [hm (by rw [hr₁]; exact he) (by rw [hr₁]; exact hw), hr₁]

/-- When the base tier is up to date, the username is accepted, a token is made and the
request can be built, the first phase of `Execute` sends a request. -/
theorem Execute.signup_sends (env : Env) (r : SignupRequest)
    (h1 : env.WaitUntilBaseNSTemplateTierIsUpdated = true)
    (h2 : (namesRegistry.add env r.username).isSome = true)
    (h3 : (env.NewTokenFromIdentity { ID := r.identityID, Username := r.username }
      (Execute.claims r)).isSome = true)
    (h4 : env.NewRequest "POST"
      (r.awaitilities.Host.RegistrationServiceURL ++ "/api/v1/signup") = true) :
    ∃ req, Action.Send req ∈ (Execute.signup env r).1 := by
  unfold Execute.signup
  obtain ⟨registered, h2⟩ := Option.isSome_iff_exists.mp h2
  obtain ⟨token, h3⟩ := Option.isSome_iff_exists.mp h3
  simp only [h1, h2, h3, Bool.not_true, Bool.false_eq_true, if_false]
  obtain ⟨req, hreq⟩ := invokeEndpoint_sent env "POST"
    (r.awaitilities.Host.RegistrationServiceURL ++ "/api/v1/signup") token ""
    r.requiredHTTPStatus (Execute.queryParams { r with token := token }) h4
  refine ⟨req, ?_⟩
  split_ifs <;> simp [hreq]

theorem Execute.queryParams_eq (r : SignupRequest) :
    Execute.queryParams r = if r.noSpace = true then [("no-space", "true")] else [] := by
  unfold Execute.queryParams
  split_ifs <;> simp [GoMap.set]

/-- Every request `Execute` sends is the signup POST. -/
theorem Execute_send (env : Env) (r : SignupRequest) (req : HTTPRequest)
    (h : Action.Send req ∈ (r.Execute env).trace) :
    req.Method = "POST" ∧
      req.URL = r.awaitilities.Host.RegistrationServiceURL ++ "/api/v1/signup" ∧
      req.Query = (if r.noSpace = true then [("no-space", "true")] else []) ∧
      req.Body = none := by
  rcases Execute_trace_kinds env r _ h with h | ⟨_, _, h⟩ | ⟨_, _, h⟩ | ⟨_, h⟩
  · rcases Execute.signup_trace env r _ h with h | ⟨req', h1, h2, h3, h4, h5⟩
    · cases h
    · cases h1
      exact ⟨h2, h3, by rw [h4, Execute.queryParams_eq], h5⟩
  · cases h
  · cases h
  · cases h

/-- On a completed `Execute`, the cleanup registered is that of the UserSignup returned, and it
is registered exactly when the cleanup is not disabled. -/
theorem Execute_cleanup (env : Env) (r : SignupRequest) (res : SignupResult)
    (h : (r.Execute env).result = some res) :
    (∀ us, Action.AddCleanTasks us ∈ (r.Execute env).trace →
      us = res.UserSignup ∧ r.cleanupDisabled = false) ∧
    (r.cleanupDisabled = false → Action.AddCleanTasks res.UserSignup ∈ (r.Execute env).trace) := by
  unfold SignupRequest.Execute at h ⊢
  have hs := Execute.signup_trace env r
  cases h1 : Execute.signup env r with
  | mk sent res₁ =>
    rw [h1] at h hs
    cases res₁ with
    | none => simp at h
    | some r₁ =>
      obtain ⟨token, hr₁⟩ := Execute.signup_some env r r₁ sent h1
      simp only at h ⊢
      have hap := Execute.approve_trace env r₁
      cases h2 : Execute.approve env r₁ with
      | mk approved res₂ =>
        rw [h2] at h hap
        cases res₂ with
        | none => simp at h
        | some userSignup =>
          simp only at h ⊢
          obtain ⟨hpt, hpr⟩ := Execute.provision_spec env r₁ userSignup
          cases h3 : Execute.provision env r₁ userSignup with
          | mk provisioned res₃ =>
            rw [h3] at h hpt hpr
            cases res₃ with
            | none => simp at h
            | some r₂ =>
              obtain ⟨space, mur, hr₂, _⟩ := hpr r₂ rfl
              simp only [Option.some.injEq] at h
              have hus : r₂.userSignup = res.UserSignup := by rw [← h, hr₂]
              have hcd : r₂.cleanupDisabled = r.cleanupDisabled := by rw [hr₂, hr₁]
              simp only
              constructor
              · intro us hmem
                simp only [List.mem_append] at hmem
                rcases hmem with ((hm | hm) | hm) | hm
                · rcases hs _ hm with hh | ⟨_, hh, _⟩ <;> cases hh
                · obtain ⟨_, _, hh⟩ := hap _ hm
                  cases hh
                · cases hpt _ hm
                · by_cases hc : r₂.cleanupDisabled = true
                  · simp [hc] at hm
                  · simp only [Bool.not_eq_true] at hc
                    simp only [hc, Bool.not_false, if_true, List.mem_singleton,
                      Action.AddCleanTasks.injEq] at hm
                    exact ⟨by rw [hm, hus], by rw [← hcd]; exact hc⟩
              · intro hc
                rw [← hcd] at hc
                simp only [hc, Bool.not_false, if_true, hus, List.mem_append,
                  List.mem_singleton, or_true]

/-- The token of a completed first phase is the one made for the identity and the extra claims
of the request. -/
theorem Execute.signup_token (env : Env) (r r₁ : SignupRequest) (t : List Action)
    (h : Execute.signup env r = (t, some r₁)) :
    env.NewTokenFromIdentity { ID := r.identityID, Username := r.username }
      (Execute.claims r) = some r₁.token := by
  unfold Execute.signup at h
  by_cases h1 : env.WaitUntilBaseNSTemplateTierIsUpdated = true
  · cases h2 : namesRegistry.add env r.username with
    | none => simp [h1, h2] at h
    | some registered =>
      cases h3 : env.NewTokenFromIdentity { ID := r.identityID, Username := r.username }
          (Execute.claims r) with
      | none => simp [h1, h2, h3] at h
      | some token =>
        simp only [h1, h2, h3, Bool.not_true, Bool.false_eq_true, if_false] at h
        split_ifs at h
        · simp only [Prod.mk.injEq, Option.some.injEq] at h
          rw [← h.2]
        · simp at h
  · simp [h1] at h

/-- The token a completed `Execute` returns is the one made for the identity and the extra
claims of the request. -/
theorem Execute_result_token (env : Env) (r : SignupRequest) (res : SignupResult)
    (h : (r.Execute env).result = some res) :
    env.NewTokenFromIdentity { ID := r.identityID, Username := r.username }
      (Execute.claims r) = some res.Token := by
  unfold SignupRequest.Execute at h
  cases h1 : Execute.signup env r with
  | mk sent res₁ =>
    rw [h1] at h
    cases res₁ with
    | none => simp at h
    | some r₁ =>
      have htok := Execute.signup_token env r r₁ sent h1
      simp only at h
      cases h2 : Execute.approve env r₁ with
      | mk approved res₂ =>
        rw [h2] at h
        cases res₂ with
        | none => simp at h
        | some userSignup =>
          simp only at h
          have hpr := (Execute.provision_spec env r₁ userSignup).2
          cases h3 : Execute.provision env r₁ userSignup with
          | mk provisioned res₃ =>
            rw [h3] at h hpr
            cases res₃ with
            | none => simp at h
            | some r₂ =>
              obtain ⟨space, mur, hr₂, _⟩ := hpr r₂ rfl
              simp only [Option.some.injEq] at h
              have : res.Token = r₁.token := by rw [← h, hr₂]
              rw [this]
              exact htok

/-! ## Lemmas on the concrete `states` package -/

theorem Slice.toList_some {α : Type} (l : List α) : Slice.toList (some l) = l := rfl

theorem contains_true_iff (l : List String) (a : String) : l.contains a = true ↔ a ∈ l := by
  unfold List.contains
  exact List.elem_iff

theorem setState_contains (u : UserSignup) (state other : String) (val : Bool) :
    (setState u state val).States.toList.contains other =
      if other = state then val else u.States.toList.contains other := by
  unfold setState
  by_cases hc : u.States.toList.contains state = true
  · cases val with
    | true =>
      simp only [hc, if_true]
      split_ifs with h
      · rw [h]; exact hc
      · rfl
    | false =>
      simp only [hc, if_true, Bool.false_eq_true, if_false]
      split_ifs with h
      · subst h
        simp [Slice.toList]
      · rw [Bool.eq_iff_iff]
        simp only [contains_true_iff, Slice.toList_some, List.mem_filter, decide_eq_true_eq]
        exact ⟨fun hm => hm.1, fun hm => ⟨hm, h⟩⟩
  · cases val with
    | true =>
      simp only [hc, if_true, Bool.false_eq_true, if_false]
      split_ifs with h
      · subst h
        simp [Slice.toList]
      · rw [Bool.eq_iff_iff]
        simp only [contains_true_iff, Slice.toList_some, List.mem_append, List.mem_singleton]
        exact ⟨fun hm => hm.resolve_right h, fun hm => Or.inl hm⟩
    | false =>
      simp only [hc, Bool.false_eq_true, if_false]
      split_ifs with h
      · rw [h]; simpa using hc
      · rfl

theorem sampleStates_approved (u : UserSignup) :
    sampleStates.ApprovedManually (sampleStates.SetApprovedManually u true) = true := by
  simp only [sampleStates, if_true, setState_contains]
  decide

theorem sampleStates_reset (u : UserSignup) :
    sampleStates.VerificationRequired (sampleStates.SetApprovedManually u true) = false := by
  simp only [sampleStates, if_true, setState_contains]
  decide

/-! ## Lemmas on chains of setters -/

theorem chain_nil (r : SignupRequest) : chain r [] = r := rfl

theorem chain_cons (r : SignupRequest) (c : Call) (calls : List Call) :
    chain r (c :: calls) = chain (c.apply r) calls := rfl

/-- The switches of a request after a chain of setters: each is on when it was on before or
its setter is among the calls; the fields only `Execute` writes are untouched. -/
theorem chain_flags (calls : List Call) : ∀ r : SignupRequest,
    (chain r calls).ensureMUR = (r.ensureMUR || decide (Call.EnsureMUR ∈ calls)) ∧
    (chain r calls).waitForMUR = (r.waitForMUR || decide (Call.WaitForMUR ∈ calls)) ∧
    (chain r calls).manuallyApprove =
      (r.manuallyApprove || decide (Call.ManuallyApprove ∈ calls)) ∧
    (chain r calls).verificationRequired =
      (r.verificationRequired || decide (Call.VerificationRequired ∈ calls)) ∧
    (chain r calls).cleanupDisabled =
      (r.cleanupDisabled || decide (Call.DisableCleanup ∈ calls)) ∧
    (chain r calls).noSpace = (r.noSpace || decide (Call.NoSpace ∈ calls)) ∧
    (chain r calls).space = r.space ∧
    (chain r calls).mur = r.mur ∧
    (chain r calls).awaitilities = r.awaitilities := by
  induction calls with
  | nil => intro r; simp [chain_nil]
  | cons c rest ih =>
    intro r
    rw [chain_cons]
    obtain ⟨h1, h2, h3, h4, h5, h6, h7, h8, h9⟩ := ih (c.apply r)
    rw [h1, h2, h3, h4, h5, h6, h7, h8, h9]
    cases c <;>
      simp [Call.apply, SignupRequest.IdentityID, SignupRequest.Username, SignupRequest.Email,
        SignupRequest.OriginalSub, SignupRequest.UserID, SignupRequest.AccountID,
        SignupRequest.EnsureMUR, SignupRequest.WaitForMUR, SignupRequest.ActivationCode,
        SignupRequest.ManuallyApprove, SignupRequest.RequireConditions,
        SignupRequest.VerificationRequired, SignupRequest.TargetCluster,
        SignupRequest.RequireHTTPStatus, SignupRequest.DisableCleanup, SignupRequest.NoSpace,
        SignupRequest.SpaceTier]

/-- Dropping the calls of `VerificationRequired()` from a chain changes neither the
manual-approval switch nor the target cluster. -/
theorem chain_without_VerificationRequired (calls : List Call) : ∀ r r' : SignupRequest,
    r.manuallyApprove = r'.manuallyApprove → r.targetCluster = r'.targetCluster →
    (chain r calls).manuallyApprove =
        (chain r' (calls.filter fun c => decide (c ≠ Call.VerificationRequired))).manuallyApprove ∧
      (chain r calls).targetCluster =
        (chain r' (calls.filter fun c => decide (c ≠ Call.VerificationRequired))).targetCluster := by
  induction calls with
  | nil => intro r r' h1 h2; exact ⟨h1, h2⟩
  | cons c rest ih =>
    intro r r' h1 h2
    by_cases hc : c = Call.VerificationRequired
    · subst hc
      simp only [ne_eq, not_true_eq_false, decide_False, Bool.false_eq_true, not_false_eq_true,
        List.filter_cons_of_neg, chain_cons]
      exact ih _ _ h1 h2
    · have hf : (List.filter (fun c => decide (c ≠ Call.VerificationRequired)) (c :: rest)) =
          c :: List.filter (fun c => decide (c ≠ Call.VerificationRequired)) rest := by
        simp [hc]
      rw [hf, chain_cons, chain_cons]
      apply ih
      · cases c <;> simp_all [Call.apply, SignupRequest.IdentityID, SignupRequest.Username,
          SignupRequest.Email, SignupRequest.OriginalSub, SignupRequest.UserID,
          SignupRequest.AccountID, SignupRequest.EnsureMUR, SignupRequest.WaitForMUR,
          SignupRequest.ActivationCode, SignupRequest.ManuallyApprove,
          SignupRequest.RequireConditions, SignupRequest.VerificationRequired,
          SignupRequest.TargetCluster, SignupRequest.RequireHTTPStatus,
          SignupRequest.DisableCleanup, SignupRequest.NoSpace, SignupRequest.SpaceTier]
      · cases c <;> simp_all [Call.apply, SignupRequest.IdentityID, SignupRequest.Username,
          SignupRequest.Email, SignupRequest.OriginalSub, SignupRequest.UserID,
          SignupRequest.AccountID, SignupRequest.EnsureMUR, SignupRequest.WaitForMUR,
          SignupRequest.ActivationCode, SignupRequest.ManuallyApprove,
          SignupRequest.RequireConditions, SignupRequest.VerificationRequired,
          SignupRequest.TargetCluster, SignupRequest.RequireHTTPStatus,
          SignupRequest.DisableCleanup, SignupRequest.NoSpace, SignupRequest.SpaceTier]

/-- The instance `doUpdate` produces depends on the request only through the manual-approval
switch and the target cluster. -/
theorem doUpdate_instance_congr (states : States) (r r' : SignupRequest)
    (userSignup inst : UserSignup) (h1 : r.manuallyApprove = r'.manuallyApprove)
    (h2 : r.targetCluster = r'.targetCluster) :
    (doUpdate states r userSignup inst).2 = (doUpdate states r' userSignup inst).2 := by
  simp only [doUpdate, h1, h2]

/-! ## Claims -/

/-- C1: `IsSpaceRoleSubset superset subset` is true exactly when the `TemplateRef` of every
element of `subset` occurs among the values of `superset`; it is true for the nil and for the
empty `subset`; and replacing the `Usernames` of the elements by anything else does not change
the result. -/
theorem C1_IsSpaceRoleSubset_iff_refs_among_values
    (superset : GoMap String String) (subset : Slice NSTemplateSetSpaceRole) :
    (IsSpaceRoleSubset superset subset = true ↔
        ∀ element ∈ subset.toList, ∃ kv ∈ superset, kv.2 = element.TemplateRef) ∧
      IsSpaceRoleSubset superset none = true ∧
      IsSpaceRoleSubset superset (some []) = true ∧
      ∀ usernames : NSTemplateSetSpaceRole → Slice String,
        IsSpaceRoleSubset superset
            (subset.map (List.map fun element => ⟨element.TemplateRef, usernames element⟩)) =
          IsSpaceRoleSubset superset subset := by
  refine ⟨?_, ?_, ?_, ?_⟩
  · rw [IsSpaceRoleSubset_iff]
    simp only [List.mem_map]
  · rw [IsSpaceRoleSubset_iff]
    intro element he
    simp [Slice.toList] at he
  · rw [IsSpaceRoleSubset_iff]
    intro element he
    simp [Slice.toList] at he
  · intro usernames
    rw [Bool.eq_iff_iff, IsSpaceRoleSubset_iff, IsSpaceRoleSubset_iff]
    cases subset with
    | none => simp [Slice.toList]
    | some l => simp [Slice.toList]

/-- C2: when the expected refs or the actual spec (or both) have cluster resources, the `Match`
function of `UntilNSTemplateSetHasTemplateRefs` returns (no panic), and it returns true exactly
when (1) both sides have cluster resources with the same template ref, (2) the sorted template
refs of `actual.Spec.Namespaces` equal the sorted expected namespace refs and (3)
`IsSpaceRoleSubset expected.SpaceRoles actual.Spec.SpaceRoles` holds; when exactly one side has
cluster resources it returns false.  Equality in (2) is that of `reflect.DeepEqual`: the
expected slice is non-nil and the two lists are permutations of each other. -/
theorem C2_HasTemplateRefs_Match_iff (expected : TemplateRefs) (actual : NSTemplateSet)
    (h : expected.ClusterResources.isSome = true ∨ actual.Spec.ClusterResources.isSome = true) :
    (∃ b, UntilNSTemplateSetHasTemplateRefs.Match expected actual = some b) ∧
    (UntilNSTemplateSetHasTemplateRefs.Match expected actual = some true ↔
      (∃ expectedRef actualClusterResources,
          expected.ClusterResources = some expectedRef ∧
          actual.Spec.ClusterResources = some actualClusterResources ∧
          expectedRef = actualClusterResources.TemplateRef) ∧
        sortStrings (some (actual.Spec.Namespaces.toList.map fun r => r.TemplateRef)) =
          sortStrings expected.Namespaces ∧
        IsSpaceRoleSubset expected.SpaceRoles actual.Spec.SpaceRoles = true) ∧
    (expected.ClusterResources.isSome ≠ actual.Spec.ClusterResources.isSome →
      UntilNSTemplateSetHasTemplateRefs.Match expected actual = some false) ∧
    (sortStrings (some (actual.Spec.Namespaces.toList.map fun r => r.TemplateRef)) =
        sortStrings expected.Namespaces ↔
      expected.Namespaces.isSome = true ∧
        (actual.Spec.Namespaces.toList.map fun r => r.TemplateRef).Perm
          expected.Namespaces.toList) := by
  refine ⟨?_, ?_, ?_, sortStrings_some_eq_iff_slice _ _⟩
  · cases he : expected.ClusterResources with
    | none =>
      cases ha : actual.Spec.ClusterResources with
      | none => simp [he, ha] at h
      | some a => exact ⟨false, by simp [UntilNSTemplateSetHasTemplateRefs.Match, he, ha]⟩
    | some e =>
      cases ha : actual.Spec.ClusterResources with
      | none => exact ⟨false, by simp [UntilNSTemplateSetHasTemplateRefs.Match, he, ha]⟩
      | some a =>
        simp only [UntilNSTemplateSetHasTemplateRefs.Match, he, ha]
        simp only [Option.isNone_some, Option.isSome_some, Bool.and_false, Bool.false_and,
          Bool.false_eq_true, if_false]
        split_ifs <;> simp
  · cases he : expected.ClusterResources with
    | none =>
      cases ha : actual.Spec.ClusterResources with
      | none => simp [he, ha] at h
      | some a => simp [UntilNSTemplateSetHasTemplateRefs.Match, he, ha]
    | some e =>
      cases ha : actual.Spec.ClusterResources with
      | none => simp [UntilNSTemplateSetHasTemplateRefs.Match, he, ha]
      | some a =>
        simp only [UntilNSTemplateSetHasTemplateRefs.Match, he, ha]
        simp only [Option.isNone_some, Option.isSome_some, Bool.and_false, Bool.false_and,
          Bool.false_eq_true, if_false, DeepEqual]
        by_cases href : e = a.TemplateRef
        · by_cases hns : sortStrings (some (actual.Spec.Namespaces.toList.map fun r => r.TemplateRef)) =
              sortStrings expected.Namespaces
          · simp [href, hns]
          · simp [href, hns]
        · simp [href]
  · intro hne
    cases he : expected.ClusterResources with
    | none =>
      cases ha : actual.Spec.ClusterResources with
      | none => simp [he, ha] at hne
      | some a => simp [UntilNSTemplateSetHasTemplateRefs.Match, he, ha]
    | some e =>
      cases ha : actual.Spec.ClusterResources with
      | none => simp [UntilNSTemplateSetHasTemplateRefs.Match, he, ha]
      | some a => simp [he, ha] at hne

/-- Witness for C2 at a tier with one namespace and one space role. -/
theorem C2_HasTemplateRefs_Match_iff_witness :
    UntilNSTemplateSetHasTemplateRefs.Match ⟨some ["dev-1"], some "cr-1", [("admin", "admin-1")]⟩
        ⟨"johnsmith", [], ⟨some ⟨"cr-1"⟩, some [⟨"dev-1"⟩], some [⟨"admin-1", some ["johnsmith"]⟩]⟩,
          ⟨none, none, none, none⟩⟩ = some true ∧
      IsSpaceRoleSubset [("admin", "admin-1")] (some [⟨"admin-1", some ["johnsmith"]⟩]) = true :=
  ⟨by decide,
    ((C2_HasTemplateRefs_Match_iff ⟨some ["dev-1"], some "cr-1", [("admin", "admin-1")]⟩
        ⟨"johnsmith", [], ⟨some ⟨"cr-1"⟩, some [⟨"dev-1"⟩], some [⟨"admin-1", some ["johnsmith"]⟩]⟩,
          ⟨none, none, none, none⟩⟩ (Or.inl rfl)).2.1.mp (by decide)).2.2⟩

/-- C3: evaluation at the failing input.  The spec has one space role, the status has none,
everything else agrees, and the `Match` function of `UntilNSTemplateSetHasStatusTemplateRefs`
still returns true: its last comparison is of `Status.SpaceRoles` with itself. -/
theorem C3_status_space_roles_compared_with_itself :
    UntilNSTemplateSetHasStatusTemplateRefs.Match sampleLib
        ⟨"johnsmith", [],
          ⟨some ⟨"cr-1"⟩, some [⟨"dev-1"⟩], some [⟨"admin-1", some ["johnsmith"]⟩]⟩,
          ⟨some ⟨"cr-1"⟩, some [⟨"dev-1"⟩], none, none⟩⟩ = some true ∧
      DeepEqual (none : Slice NSTemplateSetSpaceRole)
          (some [⟨"admin-1", some ["johnsmith"]⟩]) = false := by
  constructor <;> decide

/-- C4: on an NSTemplateSet with cluster resources in both spec and status, if the `Match`
function of `UntilNSTemplateSetHasStatusTemplateRefs` returns true then the cluster-resources
template refs of status and spec are equal, `Status.Namespaces` equals `Spec.Namespaces`
(same elements in the same order), the feature toggles of the status equal the split value of
the feature-toggle annotation whenever that annotation is present, and when it is absent the
match stays true for every other value of `Status.FeatureToggles`. -/
theorem C4_HasStatusTemplateRefs_Match_true (lib : Lib) (actual : NSTemplateSet)
    (statusClusterResources specClusterResources : NSTemplateSetClusterResources)
    (hstatus : actual.Status.ClusterResources = some statusClusterResources)
    (hspec : actual.Spec.ClusterResources = some specClusterResources)
    (hmatch : UntilNSTemplateSetHasStatusTemplateRefs.Match lib actual = some true) :
    statusClusterResources.TemplateRef = specClusterResources.TemplateRef ∧
      actual.Status.Namespaces = actual.Spec.Namespaces ∧
      actual.Status.Namespaces.toList = actual.Spec.Namespaces.toList ∧
      (∀ featureAnnotation,
        actual.Annotations.get? lib.FeatureToggleNameAnnotationKey = some featureAnnotation →
          actual.Status.FeatureToggles = lib.SplitCommaSeparatedList featureAnnotation) ∧
      (actual.Annotations.get? lib.FeatureToggleNameAnnotationKey = none →
        ∀ featureToggles : Slice String,
          UntilNSTemplateSetHasStatusTemplateRefs.Match lib
            { actual with Status := { actual.Status with FeatureToggles := featureToggles } } =
              some true) := by
  simp only [UntilNSTemplateSetHasStatusTemplateRefs.Match, hstatus, hspec, Option.isNone_some,
    Option.isSome_some, Bool.and_false, Bool.false_and, Bool.false_eq_true, if_false,
    DeepEqual] at hmatch ⊢
  by_cases href : statusClusterResources.TemplateRef = specClusterResources.TemplateRef
  · by_cases hns : actual.Status.Namespaces = actual.Spec.Namespaces
    · refine ⟨href, hns, by rw [hns], ?_, ?_⟩
      · intro featureAnnotation hfound
        by_contra hne
        have hne' : ¬ lib.SplitCommaSeparatedList featureAnnotation =
            actual.Status.FeatureToggles := fun h => hne h.symm
        simp [href, hns, hfound, hne'] at hmatch
      · intro habsent featureToggles
        simp [href, hns, habsent]
    · simp [href, hns] at hmatch
  · simp [href] at hmatch

/-- Witness for C4: a status that mirrors the spec and carries the two toggles of the
annotation. -/
theorem C4_HasStatusTemplateRefs_Match_true_witness :
    (some ["feature-a", "feature-b"] : Slice String) =
      sampleLib.SplitCommaSeparatedList "feature-a,feature-b" :=
  (C4_HasStatusTemplateRefs_Match_true sampleLib
    ⟨"johnsmith", [("toolchain.dev.openshift.com/feature", "feature-a,feature-b")],
      ⟨some ⟨"cr-1"⟩, some [⟨"dev-1"⟩], some [⟨"admin-1", some ["johnsmith"]⟩]⟩,
      ⟨some ⟨"cr-1"⟩, some [⟨"dev-1"⟩], some [⟨"admin-1", some ["johnsmith"]⟩],
        some ["feature-a", "feature-b"]⟩⟩
    ⟨"cr-1"⟩ ⟨"cr-1"⟩ rfl rfl (by decide)).2.2.2.1 "feature-a,feature-b" (by decide)

/-- C5: evaluation at the failing input.  `WaitForMUR()` was called and `EnsureMUR()` was not,
`Execute` completes, and the MUR of the result is the MasterUserRecord the wait returned, not
nil. -/
theorem C5_MUR_returned_after_WaitForMUR_alone :
    (chain sampleRequest [Call.WaitForMUR]).ensureMUR = false ∧
      ((chain sampleRequest [Call.WaitForMUR]).Execute sampleEnv).result =
        some { UserSignup := some ⟨"testuser-0001", none, "", "testuser-0001"⟩,
               MUR := some ⟨"testuser-0001"⟩, Space := none, Token := "token-testuser-0001" } := by
  constructor <;> decide

/-- C6, counterexample: `EnsureMUR()` was called and `NoSpace()` was not, so `noSpace` is
false; `Execute` completes and the Space of the result is not nil. -/
theorem C6_Space_returned_when_noSpace_false :
    (chain sampleRequest [Call.EnsureMUR]).noSpace = false ∧
      ((chain sampleRequest [Call.EnsureMUR]).Execute sampleEnv).result =
        some { UserSignup := some ⟨"testuser-0001", none, "", "testuser-0001"⟩,
               MUR := some ⟨"testuser-0001"⟩,
               Space := some ⟨"testuser-0001", "member-1"⟩,
               Token := "token-testuser-0001" } := by
  constructor <;> decide

/-- C6, amended: for a request made by `NewSignupRequest` and any chain of setters on which
`Execute` completes, the Space of the result is non-nil only if `EnsureMUR()` was called and
`NoSpace()` was not (`noSpace` is false); if `NoSpace()` was called (`noSpace` is true), or
`EnsureMUR()` was not, the Space returned is nil. -/
theorem C6_Space_only_when_noSpace_false (env : Env) (awaitilities : Awaitilities)
    (newString : String) (newID : UUID) (calls : List Call) (res : SignupResult)
    (h : ((chain (NewSignupRequest awaitilities newString newID) calls).Execute env).result =
      some res) :
    (res.Space ≠ none → Call.EnsureMUR ∈ calls ∧ Call.NoSpace ∉ calls) ∧
      (Call.NoSpace ∈ calls → res.Space = none) ∧
      (Call.EnsureMUR ∉ calls → res.Space = none) := by
  obtain ⟨token, userSignup, space, mur, hres, he, hn, _⟩ := Execute_result env _ res h
  obtain ⟨h1, _, _, _, _, h6, h7, _, _⟩ :=
    chain_flags calls (NewSignupRequest awaitilities newString newID)
  have hspace : res.Space = space := by rw [hres]
  rw [h1] at he
  rw [h6] at hn
  rw [h7] at he hn
  simp only [NewSignupRequest, Bool.false_or, decide_eq_false_iff_not, decide_eq_true_eq] at he hn
  rw [hspace]
  refine ⟨fun hne => ⟨?_, ?_⟩, hn, he⟩
  · by_contra hc
    exact hne (he hc)
  · intro hc
    exact hne (hn hc)

/-- Witness for C6 (amended): the request with `EnsureMUR()` alone, in the concrete
environment. -/
theorem C6_Space_only_when_noSpace_false_witness :
    Call.EnsureMUR ∈ [Call.EnsureMUR] ∧ Call.NoSpace ∉ [Call.EnsureMUR] :=
  (C6_Space_only_when_noSpace_false sampleEnv sampleAwaitilities "0001" { text := "id-0001" }
    [Call.EnsureMUR]
    { UserSignup := some ⟨"testuser-0001", none, "", "testuser-0001"⟩,
      MUR := some ⟨"testuser-0001"⟩,
      Space := some ⟨"testuser-0001", "member-1"⟩,
      Token := "token-testuser-0001" }
    (by decide)).1 (by decide)

/-- C7: evaluation at the failing input.  `VerificationRequired()` was called and
`ManuallyApprove()` was not; the instance handed to the update function does not have the
verification-required state; after the call the instance is unchanged and still does not
have it.  The state was set on the captured `userSignup` instead, and the UserSignup that
`Execute` gets back from `Update` and returns is without the state. -/
theorem C7_update_function_leaves_instance_unchanged :
    (chain sampleRequest [Call.VerificationRequired]).verificationRequired = true ∧
      (chain sampleRequest [Call.VerificationRequired]).manuallyApprove = false ∧
      sampleStates.VerificationRequired ⟨"testuser-0001", none, "", "testuser-0001"⟩ = false ∧
      (doUpdate sampleStates (chain sampleRequest [Call.VerificationRequired])
          ⟨"testuser-0001", none, "", "testuser-0001"⟩
          ⟨"testuser-0001", none, "", "testuser-0001"⟩).2 =
        ⟨"testuser-0001", none, "", "testuser-0001"⟩ ∧
      sampleStates.VerificationRequired
        (doUpdate sampleStates (chain sampleRequest [Call.VerificationRequired])
          ⟨"testuser-0001", none, "", "testuser-0001"⟩
          ⟨"testuser-0001", none, "", "testuser-0001"⟩).1 = true ∧
      (((chain sampleRequest [Call.VerificationRequired]).Execute sampleEnv).result.map
          fun res => res.UserSignup.map sampleStates.VerificationRequired) =
        some (some false) := by
  refine ⟨?_, ?_, ?_, ?_, ?_, ?_⟩ <;> decide

/-- C8: when both `ManuallyApprove()` and `VerificationRequired()` are among the calls on a
request, in any order, and the `states` package keeps its contract (approving manually sets
the approved state and clears the verification-required state; the state predicates do not
read `Spec.TargetCluster`), the instance the update function of `Execute` produces is
manually approved and does not have the verification-required state, and it is the instance
produced for the same chain without the calls of `VerificationRequired()`. -/
theorem C8_approval_overrides_verification_required (states : States)
    (hApproved : ∀ u, states.ApprovedManually (states.SetApprovedManually u true) = true)
    (hReset : ∀ u, states.VerificationRequired (states.SetApprovedManually u true) = false)
    (hFrame : ∀ (u : UserSignup) (cluster : String),
      states.ApprovedManually { u with TargetCluster := cluster } = states.ApprovedManually u ∧
      states.VerificationRequired { u with TargetCluster := cluster } =
        states.VerificationRequired u)
    (r : SignupRequest) (calls : List Call)
    (hManually : Call.ManuallyApprove ∈ calls) (hVerification : Call.VerificationRequired ∈ calls)
    (userSignup inst : UserSignup) :
    (chain r calls).manuallyApprove = true ∧ (chain r calls).verificationRequired = true ∧
      states.ApprovedManually (doUpdate states (chain r calls) userSignup inst).2 = true ∧
      states.VerificationRequired (doUpdate states (chain r calls) userSignup inst).2 = false ∧
      (doUpdate states (chain r calls) userSignup inst).2 =
        (doUpdate states
          (chain r (calls.filter fun c => decide (c ≠ Call.VerificationRequired)))
          userSignup inst).2 := by
  obtain ⟨_, _, h3, h4, _⟩ := chain_flags calls r
  have hm : (chain r calls).manuallyApprove = true := by rw [h3]; simp [hManually]
  have hv : (chain r calls).verificationRequired = true := by rw [h4]; simp [hVerification]
  obtain ⟨hc1, hc2⟩ := chain_without_VerificationRequired calls r r rfl rfl
  refine ⟨hm, hv, ?_, ?_, doUpdate_instance_congr states _ _ userSignup inst hc1 hc2⟩
  · simp only [doUpdate, hm, if_true]
    cases (chain r calls).targetCluster with
    | none => exact hApproved inst
    | some targetCluster => simp only; rw [(hFrame _ _).1]; exact hApproved inst
  · simp only [doUpdate, hm, if_true]
    cases (chain r calls).targetCluster with
    | none => exact hReset inst
    | some targetCluster => simp only; rw [(hFrame _ _).2]; exact hReset inst

/-- Witness for C8: `VerificationRequired()` then `ManuallyApprove()` on a fresh request, with
the concrete `states` package and an instance that has the verification-required state. -/
theorem C8_approval_overrides_verification_required_witness :
    sampleStates.ApprovedManually
        (doUpdate sampleStates
          (chain sampleRequest [Call.VerificationRequired, Call.ManuallyApprove])
          ⟨"testuser-0001", none, "", "testuser-0001"⟩
          ⟨"testuser-0001", some ["verification-required"], "", "testuser-0001"⟩).2 = true ∧
      sampleStates.VerificationRequired
        (doUpdate sampleStates
          (chain sampleRequest [Call.VerificationRequired, Call.ManuallyApprove])
          ⟨"testuser-0001", none, "", "testuser-0001"⟩
          ⟨"testuser-0001", some ["verification-required"], "", "testuser-0001"⟩).2 = false :=
  have h := C8_approval_overrides_verification_required sampleStates sampleStates_approved
    sampleStates_reset (fun _ _ => ⟨rfl, rfl⟩) sampleRequest
    [Call.VerificationRequired, Call.ManuallyApprove] (by decide) (by decide)
    ⟨"testuser-0001", none, "", "testuser-0001"⟩
    ⟨"testuser-0001", some ["verification-required"], "", "testuser-0001"⟩
  ⟨h.2.2.1, h.2.2.2.1⟩

/-- C9: for every awaitilities value (and every outcome of the two random draws),
`NewSignupRequest` returns a request that expects `StatusAccepted` (202), whose username is
`testuser-` followed by the drawn UUID text, whose email is that username followed by
`@test.com`, and in which every option is off: no switch is set, there is no target cluster,
no required conditions, and `originalSub`, `userID`, `accountID` and `spaceTier` are empty. -/
theorem C9_NewSignupRequest_defaults (awaitilities : Awaitilities) (newString : String)
    (newID : UUID) :
    (NewSignupRequest awaitilities newString newID).awaitilities = awaitilities ∧
      (NewSignupRequest awaitilities newString newID).requiredHTTPStatus = StatusAccepted ∧
      StatusAccepted = 202 ∧
      (NewSignupRequest awaitilities newString newID).username = "testuser-" ++ newString ∧
      (NewSignupRequest awaitilities newString newID).email =
        (NewSignupRequest awaitilities newString newID).username ++ "@test.com" ∧
      (NewSignupRequest awaitilities newString newID).identityID = newID ∧
      (NewSignupRequest awaitilities newString newID).ensureMUR = false ∧
      (NewSignupRequest awaitilities newString newID).waitForMUR = false ∧
      (NewSignupRequest awaitilities newString newID).manuallyApprove = false ∧
      (NewSignupRequest awaitilities newString newID).verificationRequired = false ∧
      (NewSignupRequest awaitilities newString newID).cleanupDisabled = false ∧
      (NewSignupRequest awaitilities newString newID).noSpace = false ∧
      (NewSignupRequest awaitilities newString newID).targetCluster = none ∧
      (NewSignupRequest awaitilities newString newID).conditions = none ∧
      (NewSignupRequest awaitilities newString newID).originalSub = "" ∧
      (NewSignupRequest awaitilities newString newID).userID = "" ∧
      (NewSignupRequest awaitilities newString newID).accountID = "" ∧
      (NewSignupRequest awaitilities newString newID).spaceTier = "" :=
  ⟨rfl, rfl, rfl, rfl, rfl, rfl, rfl, rfl, rfl, rfl, rfl, rfl, rfl, rfl, rfl, rfl, rfl, rfl⟩

/-- C10: for a request made by `NewSignupRequest` and any chain of setters, every request
`Execute` sends is a POST to `<RegistrationServiceURL>/api/v1/signup` without body whose added
query parameters are exactly `no-space=true` when `NoSpace()` is among the calls and none at
all otherwise; and `Execute` does send it as soon as the base tier is up to date, the
username is accepted, the token is created and the request can be built. -/
theorem C10_signup_POST_query (env : Env) (awaitilities : Awaitilities) (newString : String)
    (newID : UUID) (calls : List Call) :
    (∀ req,
      Action.Send req ∈
          ((chain (NewSignupRequest awaitilities newString newID) calls).Execute env).trace →
        req.Method = "POST" ∧
        req.URL = awaitilities.Host.RegistrationServiceURL ++ "/api/v1/signup" ∧
        req.Body = none ∧
        req.Query = (if Call.NoSpace ∈ calls then [("no-space", "true")] else [])) ∧
    ((chain (NewSignupRequest awaitilities newString newID) calls).noSpace = true ↔
      Call.NoSpace ∈ calls) ∧
    (env.WaitUntilBaseNSTemplateTierIsUpdated = true →
      (namesRegistry.add env
        (chain (NewSignupRequest awaitilities newString newID) calls).username).isSome = true →
      (env.NewTokenFromIdentity
        { ID := (chain (NewSignupRequest awaitilities newString newID) calls).identityID,
          Username := (chain (NewSignupRequest awaitilities newString newID) calls).username }
        (Execute.claims (chain (NewSignupRequest awaitilities newString newID) calls))).isSome =
          true →
      env.NewRequest "POST" (awaitilities.Host.RegistrationServiceURL ++ "/api/v1/signup") =
        true →
      ∃ req, Action.Send req ∈
        ((chain (NewSignupRequest awaitilities newString newID) calls).Execute env).trace) := by
  obtain ⟨_, _, _, _, _, h6, _, _, h9⟩ :=
    chain_flags calls (NewSignupRequest awaitilities newString newID)
  have hno : (chain (NewSignupRequest awaitilities newString newID) calls).noSpace = true ↔
      Call.NoSpace ∈ calls := by
    rw [h6]
    simp [NewSignupRequest]
  have haw : (chain (NewSignupRequest awaitilities newString newID) calls).awaitilities =
      awaitilities := by
    rw [h9]
    rfl
  refine ⟨fun req hreq => ?_, hno, fun h1 h2 h3 h4 => ?_⟩
  · obtain ⟨hm, hu, hq, hb⟩ := Execute_send env _ req hreq
    rw [haw] at hu
    refine ⟨hm, hu, hb, ?_⟩
    rw [hq]
    by_cases hc : Call.NoSpace ∈ calls
    · rw [if_pos (hno.mpr hc), if_pos hc]
    · rw [if_neg (fun h => hc (hno.mp h)), if_neg hc]
  · obtain ⟨req, hreq⟩ := Execute.signup_sends env _ h1 h2 h3 (by rw [haw]; exact h4)
    obtain ⟨rest, hrest⟩ := Execute_trace_prefix env
      (chain (NewSignupRequest awaitilities newString newID) calls)
    exact ⟨req, by rw [hrest]; exact List.mem_append_left _ hreq⟩

/-- C11: for a request made by `NewSignupRequest` and any chain of setters on which `Execute`
completes, `Execute` registers the cleanup of the UserSignup it returns if and only if
`DisableCleanup()` is not among the calls, and it registers no other cleanup. -/
theorem C11_cleanup_registered_iff_not_disabled (env : Env) (awaitilities : Awaitilities)
    (newString : String) (newID : UUID) (calls : List Call) (res : SignupResult)
    (h : ((chain (NewSignupRequest awaitilities newString newID) calls).Execute env).result =
      some res) :
    (Action.AddCleanTasks res.UserSignup ∈
        ((chain (NewSignupRequest awaitilities newString newID) calls).Execute env).trace ↔
      Call.DisableCleanup ∉ calls) ∧
    (∀ us, Action.AddCleanTasks us ∈
        ((chain (NewSignupRequest awaitilities newString newID) calls).Execute env).trace →
      us = res.UserSignup) ∧
    res.UserSignup ≠ none := by
  obtain ⟨h1, h2⟩ := Execute_cleanup env _ res h
  obtain ⟨_, _, _, _, h5, _⟩ := chain_flags calls (NewSignupRequest awaitilities newString newID)
  have hcd : (chain (NewSignupRequest awaitilities newString newID) calls).cleanupDisabled =
      false ↔ Call.DisableCleanup ∉ calls := by
    rw [h5]
    simp [NewSignupRequest]
  obtain ⟨token, userSignup, space, mur, hres, _⟩ := Execute_result env _ res h
  refine ⟨⟨fun hmem => hcd.mp (h1 _ hmem).2, fun hc => h2 (hcd.mpr hc)⟩,
    fun us hmem => (h1 us hmem).1, ?_⟩
  rw [hres]
  simp

/-- Witness for C11: a fresh request without `DisableCleanup()` in the concrete environment;
the cleanup of the returned UserSignup is registered. -/
theorem C11_cleanup_registered_iff_not_disabled_witness :
    Action.AddCleanTasks (some ⟨"testuser-0001", none, "", "testuser-0001"⟩) ∈
      ((chain (NewSignupRequest sampleAwaitilities "0001" { text := "id-0001" })
        [Call.EnsureMUR]).Execute sampleEnv).trace :=
  (C11_cleanup_registered_iff_not_disabled sampleEnv sampleAwaitilities "0001"
    { text := "id-0001" } [Call.EnsureMUR]
    { UserSignup := some ⟨"testuser-0001", none, "", "testuser-0001"⟩,
      MUR := some ⟨"testuser-0001"⟩,
      Space := some ⟨"testuser-0001", "member-1"⟩,
      Token := "token-testuser-0001" }
    (by decide)).1.mpr (by decide)

/-! ## Lemmas on the waits of `setup/wait` -/

theorem hasWithCriteria_true_iff {α : Type} (get : String → String → GetResult α)
    (name ns : String) (criteria : List (α → Bool)) :
    hasWithCriteria get name ns criteria = (true, none) ↔
      ∃ obj, get name ns = .found obj ∧ ∀ criterion ∈ criteria, criterion obj = true := by
  unfold hasWithCriteria
  cases h : get name ns with
  | found obj => simp [List.all_eq_true]
  | notFound => simp
  | failed err => simp

theorem hasWithCriteria_cases {α : Type} (get : String → String → GetResult α)
    (name ns : String) (criteria : List (α → Bool)) :
    (get name ns = .notFound → hasWithCriteria get name ns criteria = (false, none)) ∧
    (∀ obj, get name ns = .found obj → (∃ criterion ∈ criteria, criterion obj = false) →
      hasWithCriteria get name ns criteria = (false, none)) ∧
    (∀ err, get name ns = .failed err →
      hasWithCriteria get name ns criteria = (false, some err)) ∧
    (∀ obj, get name ns = .found obj → hasWithCriteria get name ns [] = (true, none)) := by
  unfold hasWithCriteria
  refine ⟨fun h => by rw [h], fun obj h hc => ?_, fun err h => by rw [h],
    fun obj h => by rw [h]; rfl⟩
  rw [h]
  obtain ⟨criterion, hmem, hfalse⟩ := hc
  have : (criteria.all fun criterion => criterion obj) = false := by
    rw [List.all_eq_false]
    exact ⟨criterion, hmem, by simp [hfalse]⟩
  simp [this]

/-- The poll succeeds at the first attempt whose condition holds, when no earlier attempt
ended it. -/
theorem pollUntilTimeout_done (condition : Nat → Bool × Option String) (retries : Nat) :
    ∀ k j, j ≤ retries → (∀ i, i < j → condition (k + i) = (false, none)) →
      condition (k + j) = (true, none) → pollUntilTimeout condition k retries = none := by
  induction retries with
  | zero =>
    intro k j hj _ hc
    have : j = 0 := Nat.le_zero.mp hj
    subst this
    simp only [Nat.add_zero] at hc
    simp [pollUntilTimeout, hc]
  | succ n ih =>
    intro k j hj hbefore hc
    cases j with
    | zero =>
      simp only [Nat.add_zero] at hc
      simp [pollUntilTimeout, hc]
    | succ j =>
      have h0 : condition k = (false, none) := by simpa using hbefore 0 (Nat.succ_pos j)
      simp only [pollUntilTimeout, h0]
      apply ih (k + 1) j (Nat.le_of_succ_le_succ hj)
      · intro i hi
        have := hbefore (i + 1) (Nat.succ_lt_succ hi)
        rwa [Nat.add_assoc, Nat.add_comm 1 i]
      · rwa [Nat.add_assoc, Nat.add_comm 1 j]

/-- The poll ends with the error of the first attempt whose condition fails, when no earlier
attempt ended it. -/
theorem pollUntilTimeout_error (condition : Nat → Bool × Option String) (retries : Nat) :
    ∀ k j, j ≤ retries → (∀ i, i < j → condition (k + i) = (false, none)) →
      ∀ done err, condition (k + j) = (done, some err) →
        pollUntilTimeout condition k retries = some err := by
  induction retries with
  | zero =>
    intro k j hj _ done err hc
    have : j = 0 := Nat.le_zero.mp hj
    subst this
    simp only [Nat.add_zero] at hc
    simp [pollUntilTimeout, hc]
  | succ n ih =>
    intro k j hj hbefore done err hc
    cases j with
    | zero =>
      simp only [Nat.add_zero] at hc
      simp [pollUntilTimeout, hc]
    | succ j =>
      have h0 : condition k = (false, none) := by simpa using hbefore 0 (Nat.succ_pos j)
      simp only [pollUntilTimeout, h0]
      apply ih (k + 1) j (Nat.le_of_succ_le_succ hj) _ done err
      · rwa [Nat.add_assoc, Nat.add_comm 1 j]
      · intro i hi
        have := hbefore (i + 1) (Nat.succ_lt_succ hi)
        rwa [Nat.add_assoc, Nat.add_comm 1 i]

/-- The poll ends with the deadline error when no attempt within the timeout ends it. -/
theorem pollUntilTimeout_deadline (condition : Nat → Bool × Option String) (retries : Nat) :
    ∀ k, (∀ i, i ≤ retries → condition (k + i) = (false, none)) →
      pollUntilTimeout condition k retries = some deadlineExceeded := by
  induction retries with
  | zero =>
    intro k h
    have h0 : condition k = (false, none) := by simpa using h 0 (Nat.le_refl 0)
    simp [pollUntilTimeout, h0]
  | succ n ih =>
    intro k h
    have h0 : condition k = (false, none) := by simpa using h 0 (Nat.zero_le _)
    simp only [pollUntilTimeout, h0]
    apply ih (k + 1)
    intro i hi
    have := h (i + 1) (Nat.succ_le_succ hi)
    rwa [Nat.add_assoc, Nat.add_comm 1 i]

/-! ## Claims on `setup/wait` -/

/-- C12: `HasSubscriptionWithCriteria`, and in the same way `HasCSVWithCriteria`, returns
(true, no error) exactly when the named resource exists in the namespace and every criterion
holds on it (existence alone with no criteria); it returns (false, no error) when the resource
does not exist or some criterion does not hold; and it returns false with the error of the
client, unchanged, when the Get fails otherwise. -/
theorem C12_Has_with_criteria
    (get : String → String → GetResult Subscription)
    (getCSV : String → String → GetResult ClusterServiceVersion)
    (name ns : String) (criteria : List (Subscription → Bool))
    (criteriaCSV : List (ClusterServiceVersion → Bool)) :
    ((HasSubscriptionWithCriteria get name ns criteria = (true, none) ↔
        ∃ sub, get name ns = .found sub ∧ ∀ criterion ∈ criteria, criterion sub = true) ∧
      (get name ns = .notFound →
        HasSubscriptionWithCriteria get name ns criteria = (false, none)) ∧
      (∀ sub, get name ns = .found sub → (∃ criterion ∈ criteria, criterion sub = false) →
        HasSubscriptionWithCriteria get name ns criteria = (false, none)) ∧
      (∀ err, get name ns = .failed err →
        HasSubscriptionWithCriteria get name ns criteria = (false, some err)) ∧
      (∀ sub, get name ns = .found sub →
        HasSubscriptionWithCriteria get name ns [] = (true, none))) ∧
    ((HasCSVWithCriteria getCSV name ns criteriaCSV = (true, none) ↔
        ∃ csv, getCSV name ns = .found csv ∧
          ∀ criterion ∈ criteriaCSV, criterion csv = true) ∧
      (getCSV name ns = .notFound →
        HasCSVWithCriteria getCSV name ns criteriaCSV = (false, none)) ∧
      (∀ csv, getCSV name ns = .found csv →
        (∃ criterion ∈ criteriaCSV, criterion csv = false) →
        HasCSVWithCriteria getCSV name ns criteriaCSV = (false, none)) ∧
      (∀ err, getCSV name ns = .failed err →
        HasCSVWithCriteria getCSV name ns criteriaCSV = (false, some err)) ∧
      (∀ csv, getCSV name ns = .found csv →
        HasCSVWithCriteria getCSV name ns [] = (true, none))) :=
  ⟨⟨hasWithCriteria_true_iff get name ns criteria, hasWithCriteria_cases get name ns criteria⟩,
    ⟨hasWithCriteria_true_iff getCSV name ns criteriaCSV,
      hasWithCriteria_cases getCSV name ns criteriaCSV⟩⟩

/-- C13: `ForSubscriptionWithCriteria`, and in the same way `ForCSVWithCriteria`, returns no
error when an attempt within the timeout finds the resource meeting the criteria (no earlier
attempt having failed); when no attempt within the timeout does, the error is the message
about the resource followed by the deadline error; and when an attempt meets an error of the
client other than not-found, the error is the same message followed by the text of that
error.  The last four conjuncts are the cases of `TestForSubscriptionWithCriteria` and
`TestForCSVWithCriteria` with their messages. -/
theorem C13_For_with_criteria
    (get : Nat → String → String → GetResult Subscription)
    (getCSV : Nat → String → String → GetResult ClusterServiceVersion)
    (name ns : String) (retries : Nat) (criteria : List (Subscription → Bool))
    (criteriaCSV : List (ClusterServiceVersion → Bool)) :
    ((∀ j, j ≤ retries →
        (∀ i, i < j → HasSubscriptionWithCriteria (get i) name ns criteria = (false, none)) →
        HasSubscriptionWithCriteria (get j) name ns criteria = (true, none) →
        ForSubscriptionWithCriteria get name ns retries criteria = none) ∧
      ((∀ i, i ≤ retries →
          HasSubscriptionWithCriteria (get i) name ns criteria = (false, none)) →
        ForSubscriptionWithCriteria get name ns retries criteria =
          some (couldNotFind "a Subscription" name ns deadlineExceeded)) ∧
      (∀ j, j ≤ retries →
        (∀ i, i < j → HasSubscriptionWithCriteria (get i) name ns criteria = (false, none)) →
        ∀ err, get j name ns = .failed err →
        ForSubscriptionWithCriteria get name ns retries criteria =
          some (couldNotFind "a Subscription" name ns err))) ∧
    ((∀ j, j ≤ retries →
        (∀ i, i < j → HasCSVWithCriteria (getCSV i) name ns criteriaCSV = (false, none)) →
        HasCSVWithCriteria (getCSV j) name ns criteriaCSV = (true, none) →
        ForCSVWithCriteria getCSV name ns retries criteriaCSV = none) ∧
      ((∀ i, i ≤ retries →
          HasCSVWithCriteria (getCSV i) name ns criteriaCSV = (false, none)) →
        ForCSVWithCriteria getCSV name ns retries criteriaCSV =
          some (couldNotFind "a CSV" name ns deadlineExceeded)) ∧
      (∀ j, j ≤ retries →
        (∀ i, i < j → HasCSVWithCriteria (getCSV i) name ns criteriaCSV = (false, none)) →
        ∀ err, getCSV j name ns = .failed err →
        ForCSVWithCriteria getCSV name ns retries criteriaCSV =
          some (couldNotFind "a CSV" name ns err))) ∧
    ForSubscriptionWithCriteria (fun _ _ _ => .notFound) "test-prefix" "test-ns" 0 [] =
      some ("could not find a Subscription with name 'test-prefix' in namespace 'test-ns' " ++
        "that meets the expected criteria: context deadline exceeded") ∧
    ForSubscriptionWithCriteria (fun _ _ _ => .failed "Test client error") "test-prefix"
        "test-ns" 0 [] =
      some ("could not find a Subscription with name 'test-prefix' in namespace 'test-ns' " ++
        "that meets the expected criteria: Test client error") ∧
    ForCSVWithCriteria (fun _ _ _ => .notFound) "test-prefix" "test-ns" 0 [] =
      some ("could not find a CSV with name 'test-prefix' in namespace 'test-ns' " ++
        "that meets the expected criteria: context deadline exceeded") ∧
    ForCSVWithCriteria (fun _ _ _ => .failed "Test client error") "test-prefix" "test-ns" 0 [] =
      some ("could not find a CSV with name 'test-prefix' in namespace 'test-ns' " ++
        "that meets the expected criteria: Test client error") := by
  refine ⟨⟨?_, ?_, ?_⟩, ⟨?_, ?_, ?_⟩, by decide, by decide, by decide, by decide⟩
  · intro j hj hbefore hdone
    unfold ForSubscriptionWithCriteria
    rw [pollUntilTimeout_done _ retries 0 j hj (by simpa using hbefore) (by simpa using hdone)]
    rfl
  · intro hnone
    unfold ForSubscriptionWithCriteria
    rw [pollUntilTimeout_deadline _ retries 0 (by simpa using hnone)]
    rfl
  · intro j hj hbefore err herr
    unfold ForSubscriptionWithCriteria
    have hc := (hasWithCriteria_cases (get j) name ns criteria).2.2.1 err herr
    rw [pollUntilTimeout_error _ retries 0 j hj (by simpa using hbefore) false err
      (by simpa [HasSubscriptionWithCriteria] using hc)]
    rfl
  · intro j hj hbefore hdone
    unfold ForCSVWithCriteria
    rw [pollUntilTimeout_done _ retries 0 j hj (by simpa using hbefore) (by simpa using hdone)]
    rfl
  · intro hnone
    unfold ForCSVWithCriteria
    rw [pollUntilTimeout_deadline _ retries 0 (by simpa using hnone)]
    rfl
  · intro j hj hbefore err herr
    unfold ForCSVWithCriteria
    have hc := (hasWithCriteria_cases (getCSV j) name ns criteriaCSV).2.2.1 err herr
    rw [pollUntilTimeout_error _ retries 0 j hj (by simpa using hbefore) false err
      (by simpa [HasCSVWithCriteria] using hc)]
    rfl

/-! ## Lemmas on the websocket watcher -/

section WatcherLemmas

variable {κ ν : Type} [DecidableEq κ]

theorem GoMap.find?_filter_ne (m : GoMap κ ν) (k k' : κ) (h : k' ≠ k) :
    (m.filter fun p => decide (p.1 ≠ k)).find? (fun p => decide (p.1 = k')) =
      m.find? (fun p => decide (p.1 = k')) := by
  induction m with
  | nil => rfl
  | cons p rest ih =>
    by_cases hp : p.1 = k
    · have hne : ¬ p.1 = k' := fun h' => h (h'.symm.trans hp)
      have h1 : ¬ decide (p.1 ≠ k) = true := by simp [hp]
      have h2 : decide (p.1 = k') = false := by simp [hne]
      rw [List.filter_cons, if_neg h1, ih]
      simp only [List.find?_cons, h2]
    · have h1 : decide (p.1 ≠ k) = true := by simp [hp]
      rw [List.filter_cons, if_pos h1]
      by_cases hk : p.1 = k'
      · have h2 : decide (p.1 = k') = true := by simp [hk]
        simp only [List.find?_cons, h2]
      · have h2 : decide (p.1 = k') = false := by simp [hk]
        simp only [List.find?_cons, h2]
        exact ih

theorem GoMap.find?_filter_self (m : GoMap κ ν) (k : κ) :
    (m.filter fun p => decide (p.1 ≠ k)).find? (fun p => decide (p.1 = k)) = none := by
  rw [List.find?_eq_none]
  intro p hp
  have := (List.mem_filter.mp hp).2
  simpa using this

theorem GoMap.get?_set (m : GoMap κ ν) (k k' : κ) (v : ν) :
    (m.set k v).get? k' = if k' = k then some v else m.get? k' := by
  unfold GoMap.set GoMap.get?
  by_cases h : k' = k
  · subst h
    simp [List.find?_cons]
  · have hne : ¬ k = k' := fun h' => h h'.symm
    rw [if_neg h, List.find?_cons]
    simp only [hne, decide_False]
    rw [GoMap.find?_filter_ne m k k' h]

theorem GoMap.get?_delete (m : GoMap κ ν) (k k' : κ) :
    (m.delete k).get? k' = if k' = k then none else m.get? k' := by
  unfold GoMap.delete GoMap.get?
  by_cases h : k' = k
  · subst h
    rw [if_pos rfl, GoMap.find?_filter_self]
    rfl
  · rw [if_neg h, GoMap.find?_filter_ne m k k' h]

end WatcherLemmas

theorem receiveHandler_append (receivedApps : GoMap String (Option Application))
    (msgs : List message) (msg : message) :
    receiveHandler receivedApps (msgs ++ [msg]) =
      receiveMessage (receiveHandler receivedApps msgs) msg := by
  simp [receiveHandler, List.foldl_append]

theorem lastMessageFor_append (name : String) (msgs : List message) (msg : message) :
    lastMessageFor name (msgs ++ [msg]) =
      if msg.Application.Name = name then some msg else lastMessageFor name msgs := by
  unfold lastMessageFor
  rw [List.reverse_append, List.reverse_singleton, List.singleton_append, List.find?_cons]
  by_cases h : msg.Application.Name = name <;> simp [h]

/-- The entry of a name after the handler has processed the messages: decided by the most
recent message about the name, or left as it was when there is none. -/
theorem receiveHandler_get? (receivedApps : GoMap String (Option Application)) (name : String)
    (msgs : List message) :
    (receiveHandler receivedApps msgs).get? name =
      match lastMessageFor name msgs with
      | none => receivedApps.get? name
      | some msg => if msg.MessageType = "DELETED" then none else some (some msg.Application) := by
  induction msgs using List.reverseRecOn with
  | nil => rfl
  | append_singleton msgs msg ih =>
    rw [receiveHandler_append, lastMessageFor_append]
    unfold receiveMessage
    by_cases hname : msg.Application.Name = name
    · rw [if_pos hname]
      by_cases hdel : msg.MessageType = "DELETED"
      · simp only [hdel, if_true]
        rw [GoMap.get?_delete, if_pos hname.symm]
      · simp only [hdel, if_false]
        rw [GoMap.get?_set, if_pos hname.symm]
    · rw [if_neg hname, ← ih]
      have hne : ¬ name = msg.Application.Name := fun h => hname h.symm
      by_cases hdel : msg.MessageType = "DELETED"
      · simp only [hdel, if_true]
        rw [GoMap.get?_delete, if_neg hne]
      · simp only [hdel, if_false]
        rw [GoMap.get?_set, if_neg hne]

theorem lastMessageFor_eq_none (name : String) (msgs : List message) :
    lastMessageFor name msgs = none ↔ ∀ msg ∈ msgs, msg.Application.Name ≠ name := by
  unfold lastMessageFor
  rw [List.find?_eq_none]
  simp only [List.mem_reverse, decide_eq_true_eq]

/-! ## Claims on the websocket watcher -/

/-- C14: after `receiveHandler` has processed a finite sequence of messages from an empty
`receivedApps`, the map has an entry for a name exactly when some message carried the name and
the most recent such message is not of type `DELETED`, and the entry is then a pointer to the
Application of that message; a name no message carried has no entry. -/
theorem C14_receivedApps_holds_last_seen (msgs : List message) (name : String) :
    ((receiveHandler [] msgs).get? name =
      match lastMessageFor name msgs with
      | none => none
      | some msg =>
        if msg.MessageType = "DELETED" then none else some (some msg.Application)) ∧
    (((receiveHandler [] msgs).get? name).isSome = true ↔
      ∃ msg, lastMessageFor name msgs = some msg ∧ msg.MessageType ≠ "DELETED") ∧
    (∀ msg, lastMessageFor name msgs = some msg → msg.MessageType ≠ "DELETED" →
      (receiveHandler [] msgs).get? name = some (some msg.Application)) ∧
    (∀ msg, lastMessageFor name msgs = some msg →
      msg ∈ msgs ∧ msg.Application.Name = name) ∧
    ((∀ msg ∈ msgs, msg.Application.Name ≠ name) →
      (receiveHandler [] msgs).get? name = none) := by
  have hget := receiveHandler_get? [] name msgs
  have hempty : GoMap.get? ([] : GoMap String (Option Application)) name = none := rfl
  rw [hempty] at hget
  refine ⟨hget, ?_, ?_, ?_, ?_⟩
  · rw [hget]
    cases hl : lastMessageFor name msgs with
    | none => simp
    | some msg =>
      by_cases hdel : msg.MessageType = "DELETED" <;> simp [hdel]
  · intro msg hl hdel
    rw [hget, hl]
    simp [hdel]
  · intro msg hl
    unfold lastMessageFor at hl
    have h1 := List.mem_of_find?_eq_some hl
    have h2 := List.find?_some hl
    exact ⟨List.mem_reverse.mp h1, by simpa using h2⟩
  · intro hnone
    rw [hget, (lastMessageFor_eq_none name msgs).mpr hnone]

/-- C15: on every state of `receivedApps` and every name, the condition of the poll of
`WaitForApplication` holds exactly when the map has a non-nil entry for the name, and
`foundApp` is then that entry; the condition of the poll of `WaitForApplicationDeletion` holds
exactly when the map has no entry for the name, as after messages none of which carried the
name, and on the empty map. -/
theorem C15_wait_conditions (receivedApps : GoMap String (Option Application))
    (name : String) (msgs : List message) :
    ((WaitForApplication.condition receivedApps name).2 = true ↔
      ∃ app, receivedApps.get? name = some (some app)) ∧
    (∀ app, receivedApps.get? name = some (some app) →
      WaitForApplication.condition receivedApps name = (some app, true)) ∧
    (WaitForApplicationDeletion.condition receivedApps name = true ↔
      receivedApps.get? name = none) ∧
    ((∀ msg ∈ msgs, msg.Application.Name ≠ name) →
      WaitForApplicationDeletion.condition (receiveHandler [] msgs) name = true) ∧
    WaitForApplicationDeletion.condition [] name = true := by
  refine ⟨?_, ?_, ?_, ?_, rfl⟩
  · unfold WaitForApplication.condition
    cases h : receivedApps.get? name with
    | none => simp
    | some entry =>
      cases entry with
      | none => simp
      | some app => simp
  · intro app h
    unfold WaitForApplication.condition
    rw [h]
    rfl
  · unfold WaitForApplicationDeletion.condition
    cases h : receivedApps.get? name <;> simp
  · intro hnone
    unfold WaitForApplicationDeletion.condition
    rw [receiveHandler_get? [] name msgs, (lastMessageFor_eq_none name msgs).mpr hnone]
    rfl

/-- C16: evaluation at the failing input.  A dial that fails before any response is there
(here a refused connection: no connection, no response, an error that is not a bad handshake)
makes the condition function of the dial poll dereference the nil response, so the function
itself fails instead of ending the poll with the dial error.  With a response, a failed dial
is retried without error exactly on a bad handshake with status 429 and ends the poll with
the dial error otherwise, and a successful dial ends the poll and stores the connection. -/
theorem C16_dial_error_without_response_fails :
    Start.condition none
        { conn := none, resp := none,
          err := some { text := "dial tcp 10.0.0.1:443: connect: connection refused",
                        isBadHandshake := false } } = none ∧
    (∀ connection resp err,
      Start.condition connection { conn := none, resp := some resp, err := some err } =
        some { done := false,
               err := if err.isBadHandshake = true ∧ resp.StatusCode = 429 then none
                 else some err,
               connection := connection }) ∧
    (∀ connection conn resp,
      Start.condition connection { conn := conn, resp := resp, err := none } =
        some { done := true, err := none, connection := conn }) := by
  refine ⟨rfl, fun connection resp err => ?_, fun connection conn resp => rfl⟩
  unfold Start.condition
  by_cases hb : err.isBadHandshake = true
  · by_cases hs : resp.StatusCode = 429
    · simp [hb, hs]
    · simp [hb, hs]
  · simp [hb]

/-! ## Claims on the signup request, continued -/

/-- C17: the extra claims `Execute` passes to the token creation are the email claim with the
email of the request, then the original-sub claim, the user-ID claim and the account-ID claim,
each present exactly when the field of the request is not empty, in this order; and the token
a completed `Execute` returns is the one created for the identity with the `identityID` of the
request as ID and its `username` as Username, with these claims.  The last conjunct is the
request of `TestUserIDAndAccountIDClaimsPropagated`. -/
theorem C17_identity_and_claims (env : Env) (r : SignupRequest) :
    Execute.claims r =
      [ExtraClaim.WithEmailClaim r.email] ++
        (if r.originalSub ≠ "" then [ExtraClaim.WithOriginalSubClaim r.originalSub] else []) ++
        (if r.userID ≠ "" then [ExtraClaim.WithUserIDClaim r.userID] else []) ++
        (if r.accountID ≠ "" then [ExtraClaim.WithAccountIDClaim r.accountID] else []) ∧
    (∀ res, (r.Execute env).result = some res →
      env.NewTokenFromIdentity { ID := r.identityID, Username := r.username }
        ([ExtraClaim.WithEmailClaim r.email] ++
          (if r.originalSub ≠ "" then [ExtraClaim.WithOriginalSubClaim r.originalSub] else []) ++
          (if r.userID ≠ "" then [ExtraClaim.WithUserIDClaim r.userID] else []) ++
          (if r.accountID ≠ "" then [ExtraClaim.WithAccountIDClaim r.accountID] else [])) =
        some res.Token) ∧
    Execute.claims (chain sampleRequest
        [Call.Username "test-user", Call.Email "test-user@redhat.com",
          Call.UserID "123456789", Call.AccountID "987654321", Call.EnsureMUR]) =
      [ExtraClaim.WithEmailClaim "test-user@redhat.com",
        ExtraClaim.WithUserIDClaim "123456789", ExtraClaim.WithAccountIDClaim "987654321"] := by
  have hclaims : Execute.claims r =
      [ExtraClaim.WithEmailClaim r.email] ++
        (if r.originalSub ≠ "" then [ExtraClaim.WithOriginalSubClaim r.originalSub] else []) ++
        (if r.userID ≠ "" then [ExtraClaim.WithUserIDClaim r.userID] else []) ++
        (if r.accountID ≠ "" then [ExtraClaim.WithAccountIDClaim r.accountID] else []) := by
    unfold Execute.claims
    by_cases h1 : r.originalSub = "" <;> by_cases h2 : r.userID = "" <;>
      by_cases h3 : r.accountID = "" <;> simp [h1, h2, h3]
  refine ⟨hclaims, fun res h => ?_, by decide⟩
  rw [← hclaims]
  exact Execute_result_token env r res h

/-- C18: every fluent setter gives back the request with its own field set to the argument
(or switched on) and every other field as it was: each field of the request after a call is
the argument of the call when the call is the setter of that field, and the field before
otherwise; the fields only `Execute` writes are never touched.  In particular `Username`
leaves the email as it was, so that on a fresh request the email stays derived from the default
username, and `RequireConditions` replaces the conditions. -/
theorem C18_setters_change_only_their_field (r : SignupRequest) (c : Call) :
    (c.apply r).awaitilities = r.awaitilities ∧
    (c.apply r).ensureMUR = (match c with | .EnsureMUR => true | _ => r.ensureMUR) ∧
    (c.apply r).waitForMUR = (match c with | .WaitForMUR => true | _ => r.waitForMUR) ∧
    (c.apply r).manuallyApprove =
      (match c with | .ManuallyApprove => true | _ => r.manuallyApprove) ∧
    (c.apply r).verificationRequired =
      (match c with | .VerificationRequired => true | _ => r.verificationRequired) ∧
    (c.apply r).identityID = (match c with | .IdentityID id => id | _ => r.identityID) ∧
    (c.apply r).username = (match c with | .Username username => username | _ => r.username) ∧
    (c.apply r).email = (match c with | .Email email => email | _ => r.email) ∧
    (c.apply r).requiredHTTPStatus =
      (match c with | .RequireHTTPStatus httpStatus => httpStatus | _ => r.requiredHTTPStatus) ∧
    (c.apply r).targetCluster =
      (match c with | .TargetCluster targetCluster => targetCluster | _ => r.targetCluster) ∧
    (c.apply r).conditions =
      (match c with | .RequireConditions conditions => conditions | _ => r.conditions) ∧
    (c.apply r).userSignup = r.userSignup ∧
    (c.apply r).mur = r.mur ∧
    (c.apply r).token = r.token ∧
    (c.apply r).originalSub =
      (match c with | .OriginalSub originalSub => originalSub | _ => r.originalSub) ∧
    (c.apply r).userID = (match c with | .UserID userID => userID | _ => r.userID) ∧
    (c.apply r).accountID =
      (match c with | .AccountID accountID => accountID | _ => r.accountID) ∧
    (c.apply r).cleanupDisabled =
      (match c with | .DisableCleanup => true | _ => r.cleanupDisabled) ∧
    (c.apply r).noSpace = (match c with | .NoSpace => true | _ => r.noSpace) ∧
    (c.apply r).activationCode =
      (match c with | .ActivationCode code => code | _ => r.activationCode) ∧
    (c.apply r).space = r.space ∧
    (c.apply r).spaceTier =
      (match c with | .SpaceTier spaceTier => spaceTier | _ => r.spaceTier) ∧
    (∀ username, (r.Username username).email = r.email) ∧
    (∀ awaitilities newString newID username,
      ((NewSignupRequest awaitilities newString newID).Username username).email =
        "testuser-" ++ newString ++ "@test.com") ∧
    (∀ earlier conditions,
      ((r.RequireConditions earlier).RequireConditions conditions).conditions = conditions) := by
  cases c <;>
    exact ⟨rfl, rfl, rfl, rfl, rfl, rfl, rfl, rfl, rfl, rfl, rfl, rfl, rfl, rfl, rfl, rfl, rfl,
      rfl, rfl, rfl, rfl, rfl, fun _ => rfl, fun _ _ _ _ => rfl, fun _ _ => rfl⟩

/-! ## Claims on the tests -/

/-- C19: for every list of at least two users and every index into it, the index
`(index+1) mod len(users)` of the other user is an index of the list and differs from the
index; in the list of `TestProxyFlow`, of three users, the other user has another username
than the current user at every index. -/
theorem C19_other_user_is_another_user (len index : Nat) (hlen : 2 ≤ len)
    (hindex : index < len) :
    otherUserIndex index len < len ∧ otherUserIndex index len ≠ index ∧
    proxyUsernames.length = 3 ∧
    ∀ i, i < proxyUsernames.length →
      proxyUsernames[otherUserIndex i proxyUsernames.length]? ≠ proxyUsernames[i]? := by
  unfold otherUserIndex
  refine ⟨?_, ?_, rfl, ?_⟩
  · exact Nat.mod_lt _ (by omega)
  · by_cases h : index + 1 < len
    · rw [Nat.mod_eq_of_lt h]
      omega
    · have : index + 1 = len := by omega
      rw [this, Nat.mod_self]
      omega
  · intro i hi
    have h3 : proxyUsernames.length = 3 := rfl
    rw [h3] at hi ⊢
    interval_cases i <;> decide

/-- Witness for C19: the last of three users; the other user is the first. -/
theorem C19_other_user_is_another_user_witness :
    otherUserIndex 2 3 < 3 ∧ otherUserIndex 2 3 ≠ 2 :=
  have h := C19_other_user_is_another_user 3 2 (by decide) (by decide)
  ⟨h.1, h.2.1⟩

/-! ## Lemmas on the metrics test -/

theorem reactivate_some (env : MetricsEnv) (username : String) (st st' : MetricsState)
    (h : reactivate env username st = some st') :
    ∃ previous id userSignup,
      st.usersignups.get? username = some previous ∧
      env.MustParse previous.Sub = some id ∧
      st' = { usersignups := st.usersignups.set username userSignup
              events := st.events ++
                [MetricsEvent.Deactivate username previous.Name,
                 MetricsEvent.Activate username
                   (reactivationRequest env st.executed username id) userSignup]
              executed := st.executed + 1 } := by
  unfold reactivate at h
  cases h1 : st.usersignups.get? username with
  | none => rw [h1] at h; simp at h
  | some previous =>
    rw [h1] at h
    simp only at h
    split_ifs at h
    cases h2 : env.MustParse previous.Sub with
    | none => rw [h2] at h; simp at h
    | some id =>
      rw [h2] at h
      simp only at h
      cases h3 : env.Execute st.executed (reactivationRequest env st.executed username id) with
      | none => rw [h3] at h; simp at h
      | some userSignup =>
        rw [h3] at h
        simp only [Option.some.injEq] at h
        exact ⟨previous, id, userSignup, rfl, h2, h.symm⟩

theorem reactivations_succ (env : MetricsEnv) (username : String) (count : Nat)
    (st st' : MetricsState) (h : reactivations env username (count + 1) st = some st') :
    ∃ st₁, reactivate env username st = some st₁ ∧
      reactivations env username count st₁ = some st' := by
  unfold reactivations at h
  cases h1 : reactivate env username st with
  | none => rw [h1] at h; simp at h
  | some st₁ => rw [h1] at h; exact ⟨st₁, rfl, h⟩

theorem activateUser_some (env : MetricsEnv) (i : Nat) (st st' : MetricsState)
    (h : activateUser env i st = some st') :
    ∃ userSignup,
      reactivations env (metricsUsername i) (i - 1)
        { usersignups := st.usersignups.set (metricsUsername i) userSignup
          events := st.events ++
            [MetricsEvent.Activate (metricsUsername i)
              (activationRequest env st.executed (metricsUsername i)) userSignup]
          executed := st.executed + 1 } = some st' := by
  unfold activateUser at h
  simp only at h
  cases h1 : env.Execute st.executed (activationRequest env st.executed (metricsUsername i)) with
  | none => rw [h1] at h; simp at h
  | some userSignup => rw [h1] at h; exact ⟨userSignup, h⟩

theorem activateUsers_cons (env : MetricsEnv) (i : Nat) (rest : List Nat)
    (st st' : MetricsState) (h : activateUsers env (i :: rest) st = some st') :
    ∃ st₁, activateUser env i st = some st₁ ∧ activateUsers env rest st₁ = some st' := by
  unfold activateUsers at h
  cases h1 : activateUser env i st with
  | none => rw [h1] at h; simp at h
  | some st₁ => rw [h1] at h; exact ⟨st₁, rfl, h⟩

/-- The events of a completed run of the loops: nine, in this order. -/
theorem TestMetrics_events (env : MetricsEnv) (st : MetricsState)
    (h : TestMetricsWhenUsersDeactivatedAndReactivated env = some st) :
    ∃ s1 s2 s2' s3 s3' s3'' id2 id3 id3',
      env.MustParse s2.Sub = some id2 ∧ env.MustParse s3.Sub = some id3 ∧
      env.MustParse s3'.Sub = some id3' ∧
      st.events =
        [MetricsEvent.Activate "user-0001" (activationRequest env 0 "user-0001") s1,
         MetricsEvent.Activate "user-0002" (activationRequest env 1 "user-0002") s2,
         MetricsEvent.Deactivate "user-0002" s2.Name,
         MetricsEvent.Activate "user-0002" (reactivationRequest env 2 "user-0002" id2) s2',
         MetricsEvent.Activate "user-0003" (activationRequest env 3 "user-0003") s3,
         MetricsEvent.Deactivate "user-0003" s3.Name,
         MetricsEvent.Activate "user-0003" (reactivationRequest env 4 "user-0003" id3) s3',
         MetricsEvent.Deactivate "user-0003" s3'.Name,
         MetricsEvent.Activate "user-0003" (reactivationRequest env 5 "user-0003" id3') s3''] := by
  have hu1 : metricsUsername 1 = "user-0001" := by decide
  have hu2 : metricsUsername 2 = "user-0002" := by decide
  have hu3 : metricsUsername 3 = "user-0003" := by decide
  unfold TestMetricsWhenUsersDeactivatedAndReactivated at h
  obtain ⟨st1, h1, h⟩ := activateUsers_cons env 1 _ _ _ h
  obtain ⟨st2, h2, h⟩ := activateUsers_cons env 2 _ _ _ h
  obtain ⟨st3, h3, h⟩ := activateUsers_cons env 3 _ _ _ h
  have hst : st = st3 := by
    unfold activateUsers at h
    exact (Option.some.inj h).symm
  subst hst
  -- the first user
  obtain ⟨s1, h1⟩ := activateUser_some env 1 _ _ h1
  rw [hu1] at h1
  have h1' := Option.some.inj (show some _ = some st1 from h1)
  subst h1'
  -- the second user
  obtain ⟨s2, h2⟩ := activateUser_some env 2 _ _ h2
  rw [hu2] at h2
  obtain ⟨st2a, h2a, h2⟩ := reactivations_succ env "user-0002" 0 _ _ h2
  have h2' := Option.some.inj (show some st2a = some st2 from h2)
  subst h2'
  obtain ⟨p2, id2, s2', hp2, hid2, hst2⟩ := reactivate_some env "user-0002" _ _ h2a
  rw [GoMap.get?_set, if_pos rfl] at hp2
  have hp2' := Option.some.inj hp2
  subst hp2'
  subst hst2
  -- the third user
  obtain ⟨s3, h3⟩ := activateUser_some env 3 _ _ h3
  rw [hu3] at h3
  obtain ⟨st3a, h3a, h3⟩ := reactivations_succ env "user-0003" 1 _ _ h3
  obtain ⟨st3b, h3b, h3⟩ := reactivations_succ env "user-0003" 0 _ _ h3
  have h3' := Option.some.inj (show some st3b = some st from h3)
  subst h3'
  obtain ⟨p3, id3, s3', hp3, hid3, hst3⟩ := reactivate_some env "user-0003" _ _ h3a
  rw [GoMap.get?_set, if_pos rfl] at hp3
  have hp3' := Option.some.inj hp3
  subst hp3'
  subst hst3
  obtain ⟨p3', id3', s3'', hp3', hid3', hst3'⟩ := reactivate_some env "user-0003" _ _ h3b
  rw [GoMap.get?_set, if_pos rfl] at hp3'
  have hp3'' := Option.some.inj hp3'
  subst hp3''
  subst hst3'
  exact ⟨s1, s2, s2', s3, s3', s3'', id2, id3, id3', hid2, hid3, hid3', by simp⟩

/-- C20: in a run of the loops of `TestMetricsWhenUsersDeactivatedAndReactivated` that reaches
their end, for every `i` from 1 to 3 a signup request for the username `user-000i` is executed
exactly `i` times and the user is deactivated exactly `i-1` times; the nine steps are listed in
order; every request is for that username with manual approval; and the request of every
reactivation has as identity ID the parsed `Sub` of the UserSignup the previous activation
of the user returned. -/
theorem C20_activations_and_deactivations (env : MetricsEnv) (st : MetricsState)
    (h : TestMetricsWhenUsersDeactivatedAndReactivated env = some st) :
    (∀ i, 1 ≤ i → i ≤ 3 →
      activationsOf (metricsUsername i) st.events = i ∧
      deactivationsOf (metricsUsername i) st.events = i - 1) ∧
    (metricsUsername 1 = "user-0001" ∧ metricsUsername 2 = "user-0002" ∧
      metricsUsername 3 = "user-0003") ∧
    (∃ s1 s2 s2' s3 s3' s3'' id2 id3 id3',
      env.MustParse s2.Sub = some id2 ∧ env.MustParse s3.Sub = some id3 ∧
      env.MustParse s3'.Sub = some id3' ∧
      st.events =
        [MetricsEvent.Activate "user-0001" (activationRequest env 0 "user-0001") s1,
         MetricsEvent.Activate "user-0002" (activationRequest env 1 "user-0002") s2,
         MetricsEvent.Deactivate "user-0002" s2.Name,
         MetricsEvent.Activate "user-0002" (reactivationRequest env 2 "user-0002" id2) s2',
         MetricsEvent.Activate "user-0003" (activationRequest env 3 "user-0003") s3,
         MetricsEvent.Deactivate "user-0003" s3.Name,
         MetricsEvent.Activate "user-0003" (reactivationRequest env 4 "user-0003" id3) s3',
         MetricsEvent.Deactivate "user-0003" s3'.Name,
         MetricsEvent.Activate "user-0003" (reactivationRequest env 5 "user-0003" id3') s3'']) ∧
    (∀ n username id,
      (reactivationRequest env n username id).identityID = id ∧
      (reactivationRequest env n username id).username = username ∧
      (reactivationRequest env n username id).manuallyApprove = true) ∧
    (∀ n username,
      (activationRequest env n username).username = username ∧
      (activationRequest env n username).manuallyApprove = true) := by
  have hu1 : metricsUsername 1 = "user-0001" := by decide
  have hu2 : metricsUsername 2 = "user-0002" := by decide
  have hu3 : metricsUsername 3 = "user-0003" := by decide
  have hev := TestMetrics_events env st h
  refine ⟨?_, ⟨hu1, hu2, hu3⟩, hev, fun n username id => ⟨rfl, rfl, rfl⟩,
    fun n username => ⟨rfl, rfl⟩⟩
  obtain ⟨s1, s2, s2', s3, s3', s3'', id2, id3, id3', _, _, _, hevents⟩ := hev
  intro i h1 h3
  rw [hevents]
  interval_cases i
  · rw [hu1]
    constructor <;> simp [activationsOf, deactivationsOf]
  · rw [hu2]
    constructor <;> simp [activationsOf, deactivationsOf]
  · rw [hu3]
    constructor <;> simp [activationsOf, deactivationsOf]

/-- Witness for C20: the run in the concrete environment reaches the end of the loops, and
`user-0003` is activated three times and deactivated twice in it. -/
theorem C20_activations_and_deactivations_witness :
    activationsOf (metricsUsername 3)
        ((TestMetricsWhenUsersDeactivatedAndReactivated sampleMetricsEnv).get
          (by decide)).events = 3 ∧
      deactivationsOf (metricsUsername 3)
        ((TestMetricsWhenUsersDeactivatedAndReactivated sampleMetricsEnv).get
          (by decide)).events = 3 - 1 :=
  (C20_activations_and_deactivations sampleMetricsEnv
    ((TestMetricsWhenUsersDeactivatedAndReactivated sampleMetricsEnv).get (by decide))
    (Option.some_get _).symm).1 3 (by decide) (by decide)

/-! ## Claims on the remaining tests -/

theorem versionCommit_lookup (env : VersionEnv) (member : MemberAwaitility) :
    ∀ lookedUp metric, VersionAction.GetMetricLabels lookedUp metric ∈
      (versionCommit env member).1 → lookedUp = member := by
  intro lookedUp metric h
  unfold versionCommit at h
  cases h1 : env.GetMetricLabels member env.MemberOperatorVersionMetric with
  | none =>
    rw [h1] at h
    simp only [List.mem_singleton, VersionAction.GetMetricLabels.injEq] at h
    exact h.1
  | some labels =>
    rw [h1] at h
    match labels, h with
    | [], h =>
      simp only [List.mem_singleton, VersionAction.GetMetricLabels.injEq] at h
      exact h.1
    | [label], h =>
      simp only [List.mem_cons, VersionAction.GetMetricLabels.injEq, List.mem_singleton,
        List.not_mem_nil, or_false] at h
      rcases h with h | h
      · exact h.1
      · cases h
    | _ :: _ :: _, h =>
      simp only [List.mem_singleton, VersionAction.GetMetricLabels.injEq] at h
      exact h.1

/-- C21: evaluation at the failing input.  With two members that run different commits, the
subtest looks the version metric up on the first member both times, never on the second, and
its last assertion compares the commit of the first member with itself, so the subtest
passes; whatever the environment, every lookup of the subtest is made on `Member1()`. -/
theorem C21_second_lookup_is_made_on_member1 :
    sampleVersionEnv.Member1 ≠ sampleVersionEnv.Member2 ∧
    TestOperatorVersionMetrics.memberOperators sampleVersionEnv =
      ([VersionAction.InitMetrics ⟨"member-1"⟩,
        VersionAction.InitMetrics ⟨"member-1"⟩,
        VersionAction.GetMetricLabels ⟨"member-1"⟩ "sandbox_member_operator_version",
        VersionAction.AssertLen "abc1234" 7,
        VersionAction.GetMetricLabels ⟨"member-1"⟩ "sandbox_member_operator_version",
        VersionAction.AssertLen "abc1234" 7,
        VersionAction.AssertEqual "abc1234" "abc1234"], true) ∧
    sampleVersionEnv.GetMetricLabels sampleVersionEnv.Member2
        sampleVersionEnv.MemberOperatorVersionMetric = some [[("commit", "def5678")]] ∧
    ∀ (env : VersionEnv) (member : MemberAwaitility) (metric : String),
      VersionAction.GetMetricLabels member metric ∈
          (TestOperatorVersionMetrics.memberOperators env).1 →
        member = env.Member1 := by
  refine ⟨by decide, by decide, by decide, ?_⟩
  intro env member metric h
  unfold TestOperatorVersionMetrics.memberOperators at h
  have hv := versionCommit_lookup env env.Member1 member metric
  by_cases hi : env.InitMetrics env.Member1 = true
  · simp only [hi, Bool.not_true, Bool.false_eq_true, if_false] at h
    cases h1 : versionCommit env env.Member1 with
    | mk first res =>
      rw [h1] at h hv
      cases res with
      | none =>
        simp only [List.mem_append, List.mem_cons, List.not_mem_nil, or_false] at h
        rcases h with (h | h) | h
        · cases h
        · cases h
        · exact hv h
      | some commit1 =>
        simp only [List.mem_append, List.mem_cons, List.not_mem_nil, or_false,
          List.mem_singleton] at h
        rcases h with (((h | h) | h) | h) | h
        · cases h
        · cases h
        · exact hv h
        · exact hv h
        · cases h
  · simp only [hi, Bool.not_false, if_true, List.mem_singleton] at h
    cases h

/-- C22: for every prefix and base name, `generateNewName` is at most 63 bytes long, is a
prefix of the concatenation of the two, is the concatenation itself when that has at most 63
bytes, and is exactly its first 63 bytes otherwise. -/
theorem C22_generateNewName_at_most_63_bytes (pfx baseName : GoString) :
    (generateNewName pfx baseName).length ≤ 63 ∧
    generateNewName pfx baseName <+: pfx ++ baseName ∧
    ((pfx ++ baseName).length ≤ 63 → generateNewName pfx baseName = pfx ++ baseName) ∧
    (63 < (pfx ++ baseName).length →
      generateNewName pfx baseName = (pfx ++ baseName).take 63 ∧
      (generateNewName pfx baseName).length = 63) := by
  unfold generateNewName
  by_cases h : (pfx ++ baseName).length > 63
  · rw [if_pos h]
    refine ⟨?_, List.take_prefix _ _, fun hle => absurd h (by omega), fun _ => ⟨rfl, ?_⟩⟩
    · rw [List.length_take]
      omega
    · rw [List.length_take]
      omega
  · rw [if_neg h]
    exact ⟨by omega, List.prefix_refl _, fun _ => rfl, fun hlt => absurd hlt h⟩

end ToolchainE2E
